import Mathlib

/-!
A shallow embedding of the vetting, scoring, hard-filter and ledger-merge
logic of the barndoor-web pipeline (src/modules/vetter.py and the merge
section of src/main.py), together with proofs of the behavioural
properties stated in the specification.

Conventions of the embedding:
* Python strings are Lean `String` (a list of unicode scalar values);
  the substring test `a in b` is `strIn a b`; `str.lower()` is `pyLower`
  (per-character `Char.toLower`, which agrees with Python on the ASCII
  texts the logic manipulates).
* Python integers are `Int`, floats that are only compared and truncated
  (hours, miles) are `Rat`.
* `dict.get(k, d) or d2` idioms are `Option` with explicit defaulting
  helpers mirroring each call site.
* Python `re.findall` for the two concrete phone patterns is implemented
  by a deterministic scanner; for these patterns the regex engine never
  needs backtracking (each optional piece is followed by `\d`, which can
  never match the skipped separator), so the scanner is exact.
* `list(set(xs))` is `List.dedup` (membership and duplicate-freeness are
  the only properties used; the iteration order of a Python set is
  unspecified).
-/

/-- Python substring containment `needle in hay` for strings. -/
def strIn (needle hay : String) : Bool :=
  decide (needle.data <:+: hay.data)

/-- Python `str.lower()` (per-character lowering; agrees on ASCII). -/
def pyLower (s : String) : String :=
  ⟨s.data.map Char.toLower⟩

/-- A word character for the `\b` boundary of Python regexes (`\w`). -/
def isWordChar (c : Char) : Bool :=
  c.isAlphanum || c == '_'

/-- Python `str.strip()` on the character list: drop whitespace at both ends. -/
def pyStripList (cs : List Char) : List Char :=
  ((cs.dropWhile Char.isWhitespace).reverse.dropWhile Char.isWhitespace).reverse

/-- Python `str.strip()`. -/
def pyStrip (s : String) : String :=
  ⟨pyStripList s.data⟩

/-- Consume exactly `n` decimal digits from the front of the list
(`\d{n}` of the phone regexes). -/
def takeDigits : Nat → List Char → Option (List Char × List Char)
  | 0, cs => some ([], cs)
  | _ + 1, [] => none
  | n + 1, c :: cs =>
    if c.isDigit then
      match takeDigits n cs with
      | some (d, r) => some (c :: d, r)
      | none => none
    else none

/-- Consume an optional separator (`[-.]?` of the phone regexes).  Both
patterns follow the option with `\d`, which can never match a skipped
separator, so the greedy choice is forced and no backtracking arises. -/
def takeSepOpt : List Char → List Char × List Char
  | [] => ([], [])
  | c :: cs => if c == '-' || c == '.' then ([c], cs) else ([], c :: cs)

/-- Consume a (possibly empty) run of whitespace (`\s*`; again forced,
being followed by `\d`). -/
def takeWs (cs : List Char) : List Char × List Char :=
  (cs.takeWhile Char.isWhitespace, cs.dropWhile Char.isWhitespace)

/-- The `\b` test between the previous character (`none` at the start of
the text) and a word character that follows. -/
def boundaryBefore : Option Char → Bool
  | none => true
  | some c => !isWordChar c

/-- The `\b` test after a word character, looking at the rest of the text. -/
def boundaryAfter : List Char → Bool
  | [] => true
  | c :: _ => !isWordChar c

/-- Match `\b\d{3}[-.]?\d{3}[-.]?\d{4}\b` (the first pattern of
`Vetter.extract_phone_numbers`) at the current position; returns the
matched characters and the rest of the text. -/
def matchPhoneDashed (prev : Option Char) (cs : List Char) :
    Option (List Char × List Char) :=
  if boundaryBefore prev then
    match takeDigits 3 cs with
    | none => none
    | some (a, r1) =>
      match takeDigits 3 (takeSepOpt r1).2 with
      | none => none
      | some (b, r3) =>
        match takeDigits 4 (takeSepOpt r3).2 with
        | none => none
        | some (d, r5) =>
          if boundaryAfter r5 then
            some (a ++ (takeSepOpt r1).1 ++ b ++ (takeSepOpt r3).1 ++ d, r5)
          else none
  else none

/-- Match `\(\d{3}\)\s*\d{3}[-.]?\d{4}` (the second pattern of
`Vetter.extract_phone_numbers`) at the current position. -/
def matchPhoneParen (_prev : Option Char) (cs : List Char) :
    Option (List Char × List Char) :=
  match cs with
  | [] => none
  | c0 :: r0 =>
    if c0 = '(' then
      match takeDigits 3 r0 with
      | none => none
      | some (a, r1) =>
        match r1 with
        | [] => none
        | c1 :: r2 =>
          if c1 = ')' then
            match takeDigits 3 (takeWs r2).2 with
            | none => none
            | some (b, r4) =>
              match takeDigits 4 (takeSepOpt r4).2 with
              | none => none
              | some (d, r6) =>
                some ('(' :: a ++ ')' :: (takeWs r2).1 ++ b ++
                  (takeSepOpt r4).1 ++ d, r6)
          else none
    else none

/-- One `re.findall` scan: walk the text left to right, emitting
non-overlapping matches of the given single-position matcher and
restarting right after each match (the fuel bounds the number of loop
iterations; each iteration consumes at least one character, so
`cs.length` fuel is always enough). -/
def scanMatches (m : Option Char → List Char → Option (List Char × List Char)) :
    Nat → Option Char → List Char → List String
  | 0, _, _ => []
  | _ + 1, _, [] => []
  | fuel + 1, prev, c :: cs =>
    match m prev (c :: cs) with
    | some (hit, rest) =>
      ⟨hit⟩ :: scanMatches m fuel (hit.getLast? <|> prev) rest
    | none => scanMatches m fuel (some c) cs

/-- Model of `re.findall(pattern, text)` for one of the two phone patterns. -/
def findallPhone (m : Option Char → List Char → Option (List Char × List Char))
    (text : String) : List String :=
  scanMatches m text.data.length none text.data

/-- Embedding of `Vetter.extract_phone_numbers` (src/modules/vetter.py): empty input
short-circuits to `[]`; otherwise both patterns are scanned, the matches
stripped, and duplicates removed (`list(set(...))`). -/
def extract_phone_numbers (text : String) : List String :=
  if text = "" then []
  else
    let nums := findallPhone matchPhoneDashed text ++ findallPhone matchPhoneParen text
    (nums.map pyStrip).dedup

/-! ## Listing classifier (`Vetter._extract_year/_extract_make/_extract_type`) -/

/-- Numeric value of a decimal digit character. -/
def digitVal (c : Char) : Nat :=
  c.toNat - 48

/-- Match `\b(19\d{2}|20[0-2]\d)\b` at the current position (both
alternatives are exactly four digits long, so they can be tested
together). -/
def matchYear (prev : Option Char) (cs : List Char) : Option Int :=
  if boundaryBefore prev then
    match cs with
    | c1 :: c2 :: c3 :: c4 :: rest =>
      if c1.isDigit && c2.isDigit && c3.isDigit && c4.isDigit &&
          ((c1 == '1' && c2 == '9') || (c1 == '2' && c2 == '0' && c3 ≤ '2')) &&
          boundaryAfter rest then
        some (Int.ofNat
          (digitVal c1 * 1000 + digitVal c2 * 100 + digitVal c3 * 10 + digitVal c4))
      else none
    | _ => none
  else none

/-- Leftmost year match in the text (`re.search` of `_extract_year`). -/
def findYearAux (prev : Option Char) : List Char → Option Int
  | [] => none
  | c :: cs =>
    match matchYear prev (c :: cs) with
    | some y => some y
    | none => findYearAux (some c) cs

/-- Embedding of the year extraction of `Vetter` (src/modules/vetter.py). -/
def extract_year (text : String) : Option Int :=
  findYearAux none text.data

/-- The fixed recognized-makes list of `Vetter._extract_make`, in source
order (first match in list order wins). -/
def vetterMakes : List String :=
  ["toyota", "honda", "subaru", "nissan", "ford", "chevy", "chevrolet",
   "dodge", "mitsubishi", "buick", "hyundai", "kia", "jeep", "gmc"]

/-- Embedding of the make extraction of `Vetter` (src/modules/vetter.py). -/
def extract_make (text : String) : Option String :=
  vetterMakes.find? (fun m => strIn m text)

/-- Embedding of the type extraction of `Vetter` (src/modules/vetter.py). -/
def extract_type (text : String) : Option String :=
  if strIn "pickup" text || strIn "truck" text then some "pickup"
  else if strIn "suv" text then some "suv"
  else if strIn "minivan" text || strIn "van" text then some "minivan"
  else none

/-! ## Configuration structures (database/settings.json surface)

Fields the Python code reads through `dict.get` with an inline default
are `Option`-valued here; each use site applies the defaulting of the
corresponding `get` call. -/

/-- The `score_weights` table of the configuration; `none` models a key
absent from the dict, defaulted at the use site. -/
structure ScoreWeights where
  high_value_bonus : Option Int
  medium_value_bonus : Option Int
  freshness_under_1hr : Option Int
  freshness_under_24hr : Option Int
  year_2010_plus : Option Int
  older_non_high_value_penalty : Option Int
  mileage_under_120k : Option Int
  high_mileage_penalty : Option Int
  engine_v8 : Option Int
  type_pickup : Option Int
  type_minivan : Option Int
  type_handicap : Option Int
  spanish_description_penalty : Option Int
deriving DecidableEq

/-- All weights absent: every use site falls back to its stated default. -/
def defaultWeights : ScoreWeights :=
  ⟨none, none, none, none, none, none, none, none, none, none, none, none, none⟩

/-- The `lists` table of the configuration. -/
structure ListsCfg where
  high_value_makes : List String
  medium_value_makes : List String
  low_value_makes : List String
deriving DecidableEq

/-- The `filters` table of the configuration. -/
structure FiltersCfg where
  excluded_types : List String
  reject_title_keywords : List String
  reject_description_keywords : List String
  reject_rust_keywords : List String
  junk_suv_keywords : List String
  junk_suv_price_override : Option Int
deriving DecidableEq

/-- The configuration consumed by `Vetter` (lists, weights, filters). -/
structure Config where
  lists : ListsCfg
  score_weights : ScoreWeights
  filters : FiltersCfg
deriving DecidableEq

/-- Defaulting of `int(filters_cfg.get("junk_suv_price_override", 1000) or 1000)`: a
missing key defaults to 1000, and so does a stored falsy value (0). -/
def junkOverrideVal (o : Option Int) : Int :=
  match o with
  | none => 1000
  | some n => if n = 0 then 1000 else n

/-- A raw listing as consumed by scoring and filtering; `none` models a
missing (or `None`) dict entry. -/
structure SListing where
  title : Option String
  description : Option String
  price : Option Int
  mileage : Option Int
  hours_since_listed : Option Rat
  location : Option String
deriving DecidableEq

/-! ## Scoring engine (`Vetter.calculate_score`)

The Python function threads a mutable `score` and `tags` through a fixed
sequence of sections; each section is one Lean step function on the pair,
applied in source order. -/

/-- Junk-SUV suppression section of `calculate_score`. -/
def junkSuvStep (combined : String) (vtype : Option String)
    (junk_keywords : List String) (junk_override price : Int) :
    Int × List String → Int × List String
  | (score, tags) =>
    if (strIn "suv" combined || vtype == some "suv") && !junk_keywords.isEmpty &&
        junk_keywords.any (fun k => strIn k combined) then
      if price ≤ junk_override then (min score 30, tags ++ ["junk_suv_super_cheap"])
      else (score - 80, tags ++ ["junk_suv_suppressed"])
    else (score, tags)

/-- Low-value section of `calculate_score`. -/
def lowValueStep (combined : String) (low_value : List String) (price : Int) :
    Int × List String → Int × List String
  | (score, tags) =>
    if low_value.any (fun m => strIn m combined) then
      if price > 1500 then (score - 100, tags ++ ["reject_low_value_model"])
      else (score - 10, tags ++ ["cheap_low_value_model"])
    else (score, tags)

/-- High/medium value section of `calculate_score`; also returns the
`is_high_value` flag consumed by the year and mileage sections. -/
def valueTierStep (combined : String) (make : Option String)
    (high_value medium_value : List String) (hv_bonus mv_bonus : Int) :
    Int × List String → (Int × List String) × Bool
  | (score, tags) =>
    if high_value.any (fun h => strIn h combined) then
      ((score + hv_bonus, tags ++ ["high_value_keyword"]), true)
    else if (match make with
             | some m => high_value.any (fun h => m = h)
             | none => false) then
      ((score + hv_bonus, tags ++ ["high_value_make"]), true)
    else if medium_value.any (fun m => strIn m combined) then
      ((score + mv_bonus, tags ++ ["medium_value_keyword"]), false)
    else ((score, tags), false)

/-- Freshness section of `calculate_score`. -/
def freshnessStep (hours : Option Rat) (w_1hr w_24hr : Int) :
    Int × List String → Int × List String
  | (score, tags) =>
    match hours with
    | some h =>
      if h < 1 then (score + w_1hr, tags ++ ["fresh_listing"])
      else if h < 24 then (score + w_24hr, tags ++ ["daily_listing"])
      else (score, tags)
    | none => (score, tags)

/-- Year-preference section of `calculate_score`. -/
def yearStep (year : Option Int) (is_high_value : Bool) (w_2010 w_older : Int) :
    Int × List String → Int × List String
  | (score, tags) =>
    match year with
    | some y =>
      if y ≥ 2010 then (score + w_2010, tags ++ ["modern_year"])
      else if y < 2005 && !is_high_value then
        (score + w_older, tags ++ ["older_non_high_value"])
      else (score, tags)
    | none => (score, tags)

/-- Mileage-preference section of `calculate_score`. -/
def mileageStep (mileage : Int) (is_high_value : Bool) (w_low w_high : Int) :
    Int × List String → Int × List String
  | (score, tags) =>
    if mileage > 0 then
      if mileage ≤ 120000 then (score + w_low, tags ++ ["low_mileage"])
      else if mileage > 180000 && !is_high_value then
        (score + w_high, tags ++ ["high_mileage_risk"])
      else (score, tags)
    else (score, tags)

/-- V8-engine bonus of `calculate_score`. -/
def v8Step (combined : String) (w_v8 : Int) :
    Int × List String → Int × List String
  | (score, tags) =>
    if strIn "v8" combined then (score + w_v8, tags ++ ["v8_engine"])
    else (score, tags)

/-- Vehicle-type bonus section of `calculate_score`. -/
def typeStep (combined : String) (vtype : Option String)
    (w_pickup w_minivan w_handicap : Int) :
    Int × List String → Int × List String
  | (score, tags) =>
    if vtype == some "pickup" then (score + w_pickup, tags ++ ["pickup_truck"])
    else if vtype == some "minivan" then
      let after : Int × List String := (score + w_minivan, tags ++ ["minivan"])
      if ["handicap", "wheelchair", "mobility", "ramp"].any
          (fun k => strIn k combined) then
        (after.1 + w_handicap, after.2 ++ ["handicap_accessible"])
      else after
    else (score, tags)

/-- Repair-tolerance section of `calculate_score` (fixed tolerance 2000). -/
def repairStep (combined : String) :
    Int × List String → Int × List String
  | (score, tags) =>
    let r1 : Int × List String :=
      if ["awd fault", "traction control", "stability control", "abs light"].any
          (fun k => strIn k combined) then
        (500, tags ++ ["awd_or_sensor_issue"])
      else (0, tags)
    let r2 : Int × List String :=
      if ["rough shift", "hesitation"].any (fun k => strIn k combined) then
        (r1.1 + 1000, r1.2 ++ ["minor_transmission_issue"])
      else r1
    if r2.1 > 2000 then (score - 30, r2.2 ++ ["repair_cost_exceeds_tolerance"])
    else (score, r2.2)

/-- The fixed Spanish-marker word list of `calculate_score`. -/
def spanishKeywords : List String :=
  ["titulo", "trasmision", "limpio", "llantas", "negociable",
   "asientos", "falla", "luces", "corre", "conduce", "motor",
   "aire", "frio", "caliente", "genial", "al 100"]

/-- Spanish-description section of `calculate_score` (checks the
description only, not the combined text). -/
def spanishStep (description_lower : String) (w_spanish : Int) :
    Int × List String → Int × List String
  | (score, tags) =>
    if 2 ≤ spanishKeywords.countP (fun k => strIn k description_lower) then
      (score + w_spanish, tags ++ ["spanish_description"])
    else (score, tags)

/-- Emoji section of `calculate_score`: characters in the astral range
`[\U00010000-\U0010ffff]`. -/
def emojiStep (combined : String) :
    Int × List String → Int × List String
  | (score, tags) =>
    if 4 < combined.data.countP (fun c => 0x10000 ≤ c.toNat) then
      (score - 10, tags ++ ["excessive_emojis"])
    else (score, tags)

/-- The combined lower-cased text used by `calculate_score`: description
first, then title. -/
def scoreCombined (l : SListing) : String :=
  pyLower (l.description.getD "") ++ " " ++ pyLower (l.title.getD "")

/-- Embedding of `Vetter.calculate_score` (src/modules/vetter.py): base score 50, the
sections applied in source order.  Note the combined text here puts the
description first (the hard filters put the title first). -/
def calculate_score (l : SListing) (cfg : Config) : Int × List String :=
  let description_lower := pyLower (l.description.getD "")
  let combined := scoreCombined l
  let high := cfg.lists.high_value_makes.map pyLower
  let medium := cfg.lists.medium_value_makes.map pyLower
  let low := cfg.lists.low_value_makes.map pyLower
  let year := extract_year combined
  let mileage := (l.mileage.getD 0)
  let price := (l.price.getD 0)
  let make := extract_make combined
  let vtype := extract_type combined
  let junk := cfg.filters.junk_suv_keywords.map pyLower
  let w := cfg.score_weights
  let st1 := junkSuvStep combined vtype junk
    (junkOverrideVal cfg.filters.junk_suv_price_override) price (50, [])
  let st2 := lowValueStep combined low price st1
  let tier := valueTierStep combined make high medium
    (w.high_value_bonus.getD 15) (w.medium_value_bonus.getD 5) st2
  let is_high_value := tier.2
  let st4 := freshnessStep l.hours_since_listed
    (w.freshness_under_1hr.getD 25) (w.freshness_under_24hr.getD 10) tier.1
  let st5 := yearStep year is_high_value
    (w.year_2010_plus.getD 10) (w.older_non_high_value_penalty.getD (-10)) st4
  let st6 := mileageStep mileage is_high_value
    (w.mileage_under_120k.getD 15) (w.high_mileage_penalty.getD (-20)) st5
  let st7 := v8Step combined (w.engine_v8.getD 10) st6
  let st8 := typeStep combined vtype (w.type_pickup.getD 15)
    (w.type_minivan.getD 15) (w.type_handicap.getD 40) st7
  let st9 := repairStep combined st8
  let st10 := spanishStep description_lower
    (w.spanish_description_penalty.getD (-10)) st9
  emojiStep combined st10

/-! ## Geocode resolver and hard filter stage
(`Vetter.calculate_distance`, `Vetter.apply_hard_filters`)

The external geocoder and the geodesic formula are the out-of-scope
collaborators; they enter the model as parameters of the vetter state:
`geocode` may fail (raise) or resolve to nothing, `gdistMiles` is the
great-circle distance in miles. -/

/-- A resolved geographic position (latitude, longitude). -/
def Coord : Type := Rat × Rat

/-- Python `int()` on a float/rational: truncation toward zero. -/
def pyInt (q : Rat) : Int :=
  if 0 ≤ q then q.floor else -((-q).floor)

/-- Match `\b\d{5}\b` at the current position. -/
def matchZip (prev : Option Char) (cs : List Char) : Option (List Char) :=
  if boundaryBefore prev then
    match takeDigits 5 cs with
    | some (d, r) => if boundaryAfter r then some d else none
    | none => none
  else none

/-- Leftmost ZIP match (`re.search(r'\b\d{5}\b', location)`). -/
def findZipAux (prev : Option Char) : List Char → Option (List Char)
  | [] => none
  | c :: cs =>
    match matchZip prev (c :: cs) with
    | some d => some d
    | none => findZipAux (some c) cs

/-- The geocoding query of `calculate_distance`: an embedded 5-digit ZIP
if present, else the whole location string. -/
def zipQuery (location : String) : String :=
  match findZipAux none location.data with
  | some d => ⟨d⟩
  | none => location

/-- The vetter state: configuration plus the external collaborators.
`geocode` returns `Except` (a raised geocoder error) of `Option`
(resolved or not); the memoization cache of the source only saves
repeated calls and is semantically transparent for a deterministic
geocoder, so it is not modelled. -/
structure VetterM where
  config : Config
  home_zip_code : String
  geo_radius_miles : Int
  geocode : String → Except String (Option Coord)
  gdistMiles : Coord → Coord → Rat

/-- Embedding of `Vetter.calculate_distance` (src/modules/vetter.py): geocode the home
ZIP, then the listing query; any raised geocoder error is swallowed by
the bare `except` into `None`, as is an unresolved endpoint. -/
def VetterM.calculate_distance (v : VetterM) (location : String) : Option Rat :=
  match v.geocode v.home_zip_code with
  | .error _ => none
  | .ok home =>
    match v.geocode (zipQuery location) with
    | .error _ => none
    | .ok listing_loc =>
      match home, listing_loc with
      | some h, some lc => some (v.gdistMiles h lc)
      | _, _ => none

/-- The combined lower-cased text used by `apply_hard_filters`: title
first, then description. -/
def hfCombined (l : SListing) : String :=
  pyLower (l.title.getD "") ++ " " ++ pyLower (l.description.getD "")

/-- Embedding of `Vetter.apply_hard_filters` (src/modules/vetter.py): the four keyword
reject rules in source order, then the soft distance check.  The combined
text here puts the title first. -/
def VetterM.apply_hard_filters (v : VetterM) (l : SListing) : Bool × String :=
  let combined := hfCombined l
  let f := v.config.filters
  let excluded := f.excluded_types.map pyLower
  if !excluded.isEmpty && excluded.any (fun t => strIn t combined) then
    (false, "excluded_vehicle_type")
  else
    let rt := f.reject_title_keywords.map pyLower
    let rd := f.reject_description_keywords.map pyLower
    let rr := f.reject_rust_keywords.map pyLower
    if !rt.isEmpty && rt.any (fun k => strIn k combined) then
      (false, "reject_title_keyword")
    else if !rd.isEmpty && rd.any (fun k => strIn k combined) then
      (false, "reject_description_keyword")
    else if !rr.isEmpty && rr.any (fun k => strIn k combined) then
      (false, "reject_rust_keyword")
    else
      let location := l.location.getD ""
      if location ≠ "" then
        match v.calculate_distance location with
        | some d =>
          if d ≠ 0 && (v.geo_radius_miles : Rat) < d then
            (true, "passed_but_far_" ++ toString (pyInt d) ++ "_miles")
          else (true, "passed")
        | none => (true, "passed")
      else (true, "passed")

/-- Embedding of `Vetter.apply_valuation_check` (src/modules/vetter.py): a stub that
always accepts. -/
def apply_valuation_check (_l : SListing) : Bool := true

/-! ## Vetting pipeline (`Vetter.execute`) -/

/-- One approved output of the pipeline: the listing plus the fields the
loop adds (`score`, `tags`, `vet_status`, `phone_numbers`). -/
structure ProcListing where
  listing : SListing
  score : Int
  tags : List String
  vet_status : String
  phone_numbers : List String
deriving DecidableEq

/-- Embedding of `Vetter.execute` (src/modules/vetter.py): filter, valuation check,
score, phone extraction (raw title first, then raw description), stamp
approved; rejected listings are dropped. -/
def VetterM.execute (v : VetterM) : List SListing → List ProcListing
  | [] => []
  | l :: rest =>
    let pr := v.apply_hard_filters l
    if !pr.1 then v.execute rest
    else if !apply_valuation_check l then v.execute rest
    else
      let st := calculate_score l v.config
      let phones := extract_phone_numbers
        ((l.title.getD "") ++ " " ++ (l.description.getD ""))
      ⟨l, st.1, st.2, "approved", phones⟩ :: v.execute rest

/-- Variant of `Vetter.execute` with the exception behaviour of the loop body made
explicit: each per-listing operation may raise (`Except.error`), and the
loop — which has no try/except in the source — sequences them in the
exception monad, so the first raised error propagates out of the whole
call.  Instantiating every operation with `Except.ok ∘ f` recovers
`VetterM.execute`. -/
def executeExc (hf : SListing → Except String (Bool × String))
    (vc : SListing → Except String Bool)
    (sc : SListing → Except String (Int × List String))
    (ph : String → Except String (List String)) :
    List SListing → Except String (List ProcListing)
  | [] => .ok []
  | l :: rest =>
    match hf l with
    | .error e => .error e
    | .ok pr =>
      if !pr.1 then executeExc hf vc sc ph rest
      else
        match vc l with
        | .error e => .error e
        | .ok ok =>
          if !ok then executeExc hf vc sc ph rest
          else
            match sc l with
            | .error e => .error e
            | .ok st =>
              match ph ((l.title.getD "") ++ " " ++ (l.description.getD "")) with
              | .error e => .error e
              | .ok phones =>
                match executeExc hf vc sc ph rest with
                | .error e => .error e
                | .ok out => .ok (⟨l, st.1, st.2, "approved", phones⟩ :: out)

/-! ## Ledger merge protocol (step 3 of `run_pipeline`, src/main.py)

The persistent store is modelled as a list of records; lookup is
first-match by `listing_url` (`find_one` / first search result), insert
appends, and update-by-url rewrites the stored fields of the matching
record.  Under the unique-URL invariant the first match is the only
match, so this covers both the Mongo adapter and the TinyDB fallback. -/

/-- One entry of `batch_history`. -/
structure BatchEntry where
  batch_id : String
  batch_name : String
  price : Int
deriving DecidableEq

/-- An approved listing as it reaches the merge loop: scored, tagged and
stamped with the batch of the current run.  `status` is optional — the
loop adds `active` only when the key is absent. -/
structure MListing where
  listing_url : String
  title : String
  description : String
  price : Int
  mileage : Int
  score : Int
  tags : List String
  phone_numbers : List String
  batch_id : String
  batch_name : String
  status : Option String
deriving DecidableEq

/-- A stored ledger record (the full listing dict as inserted, plus the
fields the merge loop maintains). -/
structure Record where
  listing_url : String
  title : String
  description : String
  price : Int
  mileage : Int
  score : Int
  tags : List String
  phone_numbers : List String
  batch_id : String
  batch_name : String
  status : String
  processed_at : String
  listed_at : String
  last_seen : Option String
  batch_history : List BatchEntry
deriving DecidableEq

/-- URL normalization of the merge loop:
`raw_url.split('?')[0] if raw_url else ''` — the first split segment is
the prefix up to (and excluding) the first `?`. -/
def normalize_url (u : String) : String :=
  if u = "" then "" else ⟨u.data.takeWhile (fun c => c != '?')⟩

/-- The record inserted when no existing record matches the normalized
URL: the full listing with `status` defaulted to `active`, the run
timestamps, and a singleton `batch_history`. -/
def mkNewRecord (l : MListing) (now listed_at : String) : Record :=
  ⟨normalize_url l.listing_url, l.title, l.description, l.price, l.mileage,
   l.score, l.tags, l.phone_numbers, l.batch_id, l.batch_name,
   l.status.getD "active", now, listed_at, none,
   [⟨l.batch_id, l.batch_name, l.price⟩]⟩

/-- The history update of the merge loop: append the current batch entry
only when no existing entry already carries the current `batch_id`. -/
def updatedHistory (hist : List BatchEntry) (l : MListing) : List BatchEntry :=
  if hist.any (fun h => h.batch_id == l.batch_id) then hist
  else hist ++ [⟨l.batch_id, l.batch_name, l.price⟩]

/-- The `update_data` write of the merge loop: exactly `price`, `score`,
`last_seen`, `batch_id`, `batch_name`, `batch_history`. -/
def applyUpdate (l : MListing) (now : String) (hist : List BatchEntry)
    (r : Record) : Record :=
  { r with
    price := l.price
    score := l.score
    last_seen := some now
    batch_id := l.batch_id
    batch_name := l.batch_name
    batch_history := hist }

/-- One iteration of the merge loop of `run_pipeline` for one approved
listing. -/
def mergeStep (now listed_at : String) (ledger : List Record)
    (l : MListing) : List Record :=
  match ledger.find? (fun r => r.listing_url == normalize_url l.listing_url) with
  | none => ledger ++ [mkNewRecord l now listed_at]
  | some ex =>
    ledger.map (fun r =>
      if r.listing_url == normalize_url l.listing_url then
        applyUpdate l now (updatedHistory ex.batch_history l) r
      else r)

/-- The whole merge pass of `run_pipeline` over a batch of approved
listings. -/
def mergeBatch (now listed_at : String) (ledger : List Record)
    (ls : List MListing) : List Record :=
  ls.foldl (mergeStep now listed_at) ledger

/-- The ledger invariants of the data model: one record per URL, and no
`batch_history` holds two entries with the same `batch_id`. -/
def LedgerWF (ledger : List Record) : Prop :=
  (ledger.map (fun r => r.listing_url)).Nodup ∧
  ∀ r ∈ ledger, (r.batch_history.map (fun h => h.batch_id)).Nodup

/-! ## Concrete instances used by the scenario claims and witnesses -/

/-- An empty `lists` table. -/
def emptyLists : ListsCfg := ⟨[], [], []⟩

/-- An empty `filters` table (all keyword lists empty, no override). -/
def emptyFilters : FiltersCfg := ⟨[], [], [], [], [], none⟩

/-- A configuration with everything empty and all weights defaulted. -/
def emptyCfg : Config := ⟨emptyLists, defaultWeights, emptyFilters⟩

/-- The high-value fresh truck scenario listing: title
"2022 Toyota Tacoma TRD", empty description, price 35000, mileage 15000,
listed half an hour ago. -/
def tacomaListing : SListing :=
  ⟨some "2022 Toyota Tacoma TRD", some "", some 35000, some 15000,
   some (mkRat 1 2), none⟩

/-- Configuration for the scenario: "toyota" configured high-value, all
other lists empty, default weights. -/
def tacomaCfg : Config :=
  ⟨⟨["toyota"], [], []⟩, defaultWeights, emptyFilters⟩

/-- A listing matching the junk-SUV keyword "explorer" at price 500,
fresh, but with no "suv" occurrence in its text. -/
def wagonListing : SListing :=
  ⟨some "cheap explorer wagon", some "", some 500, some 0,
   some (mkRat 1 2), none⟩

/-- A listing matching the junk-SUV keyword "explorer" at price 500,
fresh, with "suv" in its text. -/
def explorerSuvListing : SListing :=
  ⟨some "cheap explorer suv", some "", some 500, some 0,
   some (mkRat 1 2), none⟩

/-- Configuration with "explorer" as the only junk-SUV keyword (override
absent, so the threshold defaults to 1000). -/
def junkCfg : Config :=
  ⟨emptyLists, defaultWeights, ⟨[], [], [], [], ["explorer"], none⟩⟩

/-- A geocoder stub that resolves everything to the origin. -/
def geocodeAll : String → Except String (Option Coord) :=
  fun _ => .ok (some ((0 : Rat), (0 : Rat)))

/-- A vetter whose geocoder resolves everything and whose geodesic
distance is the constant 300 miles, radius 250. -/
def farVetter : VetterM :=
  ⟨emptyCfg, "60025", 250, geocodeAll, fun _ _ => (300 : Rat)⟩

/-- A vetter with an excluded type and a rust keyword configured. -/
def filterVetter : VetterM :=
  ⟨⟨emptyLists, defaultWeights, ⟨["bus"], [], [], ["rust"], [], none⟩⟩,
   "60025", 250, geocodeAll, fun _ _ => (0 : Rat)⟩

/-- A listing whose title matches both the excluded type and the rust
keyword of `filterVetter`. -/
def rustyBusListing : SListing :=
  ⟨some "Rusty Bus", some "lots of rust", some 100, some 0, none, none⟩

/-- An innocuous listing located beyond the configured radius of
`farVetter`. -/
def farListing : SListing :=
  ⟨some "clean car", some "", some 100, some 0, none, some "chicago"⟩

/-- Stub per-listing hard filter that always passes (never raises). -/
def hfOkStub : SListing → Except String (Bool × String) :=
  fun _ => .ok (true, "passed")

/-- Stub valuation check, the real (total) one lifted into `Except`. -/
def vcOkStub : SListing → Except String Bool :=
  fun l => .ok (apply_valuation_check l)

/-- Stub phone extraction, the real (total) one lifted into `Except`. -/
def phOkStub : String → Except String (List String) :=
  fun t => .ok (extract_phone_numbers t)

/-- A listing on which the stub scorer raises. -/
def badListing : SListing := ⟨some "bad", some "", none, none, none, none⟩

/-- A listing the stub scorer handles normally. -/
def goodListing : SListing :=
  ⟨some "ok car", some "", some 100, some 0, none, none⟩

/-- A scorer that raises a TypeError on `badListing` (modelling, e.g., a
non-numeric `mileage` crashing a comparison in `calculate_score`) and
scores every other listing normally. -/
def scBoomStub : SListing → Except String (Int × List String) :=
  fun l => if l.title = some "bad" then .error "TypeError"
           else .ok (calculate_score l emptyCfg)

/-- Two observed URLs differing only in their query string. -/
def urlAbc : String := "https://marketplace/item/123?ref=abc"

/-- The second observation of the same listing page. -/
def urlXyz : String := "https://marketplace/item/123?ref=xyz"

/-- An approved observation of `urlAbc` in batch B1. -/
def obsListing : MListing :=
  ⟨urlAbc, "Car", "desc", 4500, 90000, 80, ["low_mileage"], [],
   "B1", "Batch Laura-1200", none⟩

/-- A later approved observation of the same page (via `urlXyz`) in
batch B2. -/
def obsListing2 : MListing :=
  ⟨urlXyz, "Car", "new desc", 4200, 90000, 78, [], [],
   "B2", "Batch Marco-1300", none⟩

/-- A stored record for the normalized URL, operator-marked `sold`. -/
def soldRecord : Record :=
  ⟨"https://marketplace/item/123", "Car", "old desc", 5000, 90000, 70,
   ["tag0"], [], "B0", "Batch Arthur-0900", "sold",
   "2025-01-01T00:00:00", "2024-12-31T20:00:00", none,
   [⟨"B0", "Batch Arthur-0900", 5000⟩]⟩

/-- A one-record ledger holding `soldRecord`. -/
def demoLedger : List Record := [soldRecord]

/-- Checker for the shape actually matched by the first phone pattern:
three digits, an optional `-`/`.` separator, three digits, an optional
separator, four digits — and nothing else.  (The separators are optional
because the pattern writes `[-.]?`.) -/
def loosePhoneShape (s : String) : Bool :=
  match takeDigits 3 s.data with
  | none => false
  | some (_, r1) =>
    match takeDigits 3 (takeSepOpt r1).2 with
    | none => false
    | some (_, r3) =>
      match takeDigits 4 (takeSepOpt r3).2 with
      | none => false
      | some (_, r5) => r5.isEmpty

/-- Checker for the shape matched by the second phone pattern:
`(` three digits `)`, any run of whitespace, three digits, an optional
separator, four digits — and nothing else. -/
def parenPhoneShape (s : String) : Bool :=
  match s.data with
  | '(' :: r0 =>
    match takeDigits 3 r0 with
    | none => false
    | some (_, r1) =>
      match r1 with
      | ')' :: r2 =>
        match takeDigits 3 (takeWs r2).2 with
        | none => false
        | some (_, r4) =>
          match takeDigits 4 (takeSepOpt r4).2 with
          | none => false
          | some (_, r6) => r6.isEmpty
      | _ => false
  | _ => false

/-! ## Tag bookkeeping lemmas for the scoring sections

Each section only appends to the tag list, so membership is preserved
forward, and a tag found in a section's output either was already there
or is one of the literals that section can add. -/

theorem junkSuvStep_tags_super (c : String) (vt : Option String)
    (jk : List String) (jo pr : Int) (x : String) (p : Int × List String)
    (h : x ∈ p.2) : x ∈ (junkSuvStep c vt jk jo pr p).2 := by
  obtain ⟨s, t⟩ := p
  unfold junkSuvStep
  split_ifs <;> simp_all

theorem lowValueStep_tags_super (c : String) (low : List String) (pr : Int)
    (x : String) (p : Int × List String) (h : x ∈ p.2) :
    x ∈ (lowValueStep c low pr p).2 := by
  obtain ⟨s, t⟩ := p
  unfold lowValueStep
  split_ifs <;> simp_all

theorem valueTierStep_tags_super (c : String) (mk : Option String)
    (hi md : List String) (hv mv : Int) (x : String) (p : Int × List String)
    (h : x ∈ p.2) : x ∈ ((valueTierStep c mk hi md hv mv p).1).2 := by
  obtain ⟨s, t⟩ := p
  unfold valueTierStep
  split_ifs <;> simp_all

theorem freshnessStep_tags_super (hrs : Option Rat) (w1 w2 : Int)
    (x : String) (p : Int × List String) (h : x ∈ p.2) :
    x ∈ (freshnessStep hrs w1 w2 p).2 := by
  obtain ⟨s, t⟩ := p
  cases hrs <;> simp only [freshnessStep] <;> (try split_ifs) <;> simp_all

theorem yearStep_tags_super (yr : Option Int) (ih : Bool) (w1 w2 : Int)
    (x : String) (p : Int × List String) (h : x ∈ p.2) :
    x ∈ (yearStep yr ih w1 w2 p).2 := by
  obtain ⟨s, t⟩ := p
  cases yr <;> simp only [yearStep] <;> (try split_ifs) <;> simp_all

theorem mileageStep_tags_super (m : Int) (ih : Bool) (w1 w2 : Int)
    (x : String) (p : Int × List String) (h : x ∈ p.2) :
    x ∈ (mileageStep m ih w1 w2 p).2 := by
  obtain ⟨s, t⟩ := p
  unfold mileageStep
  split_ifs <;> simp_all

theorem v8Step_tags_super (c : String) (w : Int)
    (x : String) (p : Int × List String) (h : x ∈ p.2) :
    x ∈ (v8Step c w p).2 := by
  obtain ⟨s, t⟩ := p
  unfold v8Step
  split_ifs <;> simp_all

theorem typeStep_tags_super (c : String) (vt : Option String) (w1 w2 w3 : Int)
    (x : String) (p : Int × List String) (h : x ∈ p.2) :
    x ∈ (typeStep c vt w1 w2 w3 p).2 := by
  obtain ⟨s, t⟩ := p
  unfold typeStep
  split_ifs <;> simp_all

theorem repairStep_tags_super (c : String)
    (x : String) (p : Int × List String) (h : x ∈ p.2) :
    x ∈ (repairStep c p).2 := by
  obtain ⟨s, t⟩ := p
  unfold repairStep
  split_ifs <;> simp_all

theorem spanishStep_tags_super (d : String) (w : Int)
    (x : String) (p : Int × List String) (h : x ∈ p.2) :
    x ∈ (spanishStep d w p).2 := by
  obtain ⟨s, t⟩ := p
  unfold spanishStep
  split_ifs <;> simp_all

theorem emojiStep_tags_super (c : String)
    (x : String) (p : Int × List String) (h : x ∈ p.2) :
    x ∈ (emojiStep c p).2 := by
  obtain ⟨s, t⟩ := p
  unfold emojiStep
  split_ifs <;> simp_all

theorem mem_of_junkSuvStep_tags (c : String) (vt : Option String)
    (jk : List String) (jo pr : Int) (x : String) (p : Int × List String)
    (h : x ∈ (junkSuvStep c vt jk jo pr p).2) :
    x ∈ p.2 ∨ x = "junk_suv_super_cheap" ∨ x = "junk_suv_suppressed" := by
  obtain ⟨s, t⟩ := p
  unfold junkSuvStep at h
  split_ifs at h <;> simp_all <;> tauto

theorem mem_of_lowValueStep_tags (c : String) (low : List String) (pr : Int)
    (x : String) (p : Int × List String)
    (h : x ∈ (lowValueStep c low pr p).2) :
    x ∈ p.2 ∨ x = "reject_low_value_model" ∨ x = "cheap_low_value_model" := by
  obtain ⟨s, t⟩ := p
  unfold lowValueStep at h
  split_ifs at h <;> simp_all <;> tauto

theorem mem_of_freshnessStep_tags (hrs : Option Rat) (w1 w2 : Int)
    (x : String) (p : Int × List String)
    (h : x ∈ (freshnessStep hrs w1 w2 p).2) :
    x ∈ p.2 ∨ x = "fresh_listing" ∨ x = "daily_listing" := by
  obtain ⟨s, t⟩ := p
  cases hrs <;> simp only [freshnessStep] at h <;> (try split_ifs at h) <;>
    simp_all <;> tauto

theorem mem_of_yearStep_tags (yr : Option Int) (ih : Bool) (w1 w2 : Int)
    (x : String) (p : Int × List String)
    (h : x ∈ (yearStep yr ih w1 w2 p).2) :
    x ∈ p.2 ∨ x = "modern_year" ∨ x = "older_non_high_value" := by
  obtain ⟨s, t⟩ := p
  cases yr <;> simp only [yearStep] at h <;> (try split_ifs at h) <;>
    simp_all <;> tauto

theorem mem_of_mileageStep_tags (m : Int) (ih : Bool) (w1 w2 : Int)
    (x : String) (p : Int × List String)
    (h : x ∈ (mileageStep m ih w1 w2 p).2) :
    x ∈ p.2 ∨ x = "low_mileage" ∨ x = "high_mileage_risk" := by
  obtain ⟨s, t⟩ := p
  unfold mileageStep at h
  split_ifs at h <;> simp_all <;> tauto

theorem mem_of_v8Step_tags (c : String) (w : Int)
    (x : String) (p : Int × List String) (h : x ∈ (v8Step c w p).2) :
    x ∈ p.2 ∨ x = "v8_engine" := by
  obtain ⟨s, t⟩ := p
  unfold v8Step at h
  split_ifs at h <;> simp_all

theorem mem_of_typeStep_tags (c : String) (vt : Option String) (w1 w2 w3 : Int)
    (x : String) (p : Int × List String)
    (h : x ∈ (typeStep c vt w1 w2 w3 p).2) :
    x ∈ p.2 ∨ x = "pickup_truck" ∨ x = "minivan" ∨ x = "handicap_accessible" := by
  obtain ⟨s, t⟩ := p
  unfold typeStep at h
  split_ifs at h <;> simp_all <;> tauto

theorem mem_of_repairStep_tags (c : String)
    (x : String) (p : Int × List String) (h : x ∈ (repairStep c p).2) :
    x ∈ p.2 ∨ x = "awd_or_sensor_issue" ∨ x = "minor_transmission_issue" ∨
      x = "repair_cost_exceeds_tolerance" := by
  obtain ⟨s, t⟩ := p
  unfold repairStep at h
  split_ifs at h <;> simp_all <;> tauto

theorem mem_of_spanishStep_tags (d : String) (w : Int)
    (x : String) (p : Int × List String) (h : x ∈ (spanishStep d w p).2) :
    x ∈ p.2 ∨ x = "spanish_description" := by
  obtain ⟨s, t⟩ := p
  unfold spanishStep at h
  split_ifs at h <;> simp_all

theorem mem_of_emojiStep_tags (c : String)
    (x : String) (p : Int × List String) (h : x ∈ (emojiStep c p).2) :
    x ∈ p.2 ∨ x = "excessive_emojis" := by
  obtain ⟨s, t⟩ := p
  unfold emojiStep at h
  split_ifs at h <;> simp_all

/-- The `elif` branch of the high/medium tier can never fire when the
make argument is the one `_extract_make` computed from the same combined
text: an extracted make occurring in the high-value list is itself a
substring of the text, so the first branch has already matched. -/
theorem mem_of_valueTierStep_extract_make (c : String) (hi md : List String)
    (hv mv : Int) (x : String) (p : Int × List String)
    (h : x ∈ ((valueTierStep c (extract_make c) hi md hv mv p).1).2) :
    x ∈ p.2 ∨ x = "high_value_keyword" ∨ x = "medium_value_keyword" := by
  obtain ⟨s, t⟩ := p
  unfold valueTierStep at h
  split_ifs at h with h1 h2 h3
  · simp_all <;> tauto
  · exfalso
    apply h1
    rcases hm : extract_make c with _ | m
    · rw [hm] at h2; simp at h2
    · rw [hm] at h2
      have hm2 : vetterMakes.find? (fun k => strIn k c) = some m := hm
      have hsub : strIn m c = true := by
        have := List.find?_some hm2
        simpa using this
      have hmem : ∃ k ∈ hi, m = k := by simpa using h2
      rcases hmem with ⟨k, hk, hmk⟩
      refine List.any_eq_true.mpr ⟨k, hk, ?_⟩
      rw [← hmk]; exact hsub
  · simp_all <;> tauto
  · simp_all <;> tauto

/-- When the junk-SUV conditions all hold with a price at or below the
override, the junk section caps the running score at 30 and appends the
super-cheap tag. -/
theorem junkSuvStep_super_cheap (c : String) (vt : Option String)
    (jk : List String) (jo pr : Int) (p : Int × List String)
    (hsuv : strIn "suv" c = true)
    (hany : jk.any (fun k => strIn k c) = true)
    (hpr : pr ≤ jo) :
    junkSuvStep c vt jk jo pr p = (min p.1 30, p.2 ++ ["junk_suv_super_cheap"]) := by
  obtain ⟨s, t⟩ := p
  have hne : jk.isEmpty = false := by
    rcases List.any_eq_true.mp hany with ⟨k, hk, _⟩
    cases jk
    · simp at hk
    · rfl
  unfold junkSuvStep
  simp [hsuv, hne, hany, hpr]

/-- C10: the tag `high_value_make` is unreachable — `calculate_score`
never emits it, for any listing and any configuration, because an
extracted make that appears in the high-value list is itself a substring
of the combined text, so the `high_value_keyword` branch has already
fired. -/
theorem high_value_make_unreachable (l : SListing) (cfg : Config) :
    List.count "high_value_make" (calculate_score l cfg).2 = 0 := by
  rw [List.count_eq_zero]
  intro hmem
  simp only [calculate_score] at hmem
  rcases mem_of_emojiStep_tags _ _ _ hmem with h | h <;>
    try exact absurd h (by decide)
  rcases mem_of_spanishStep_tags _ _ _ _ h with h | h <;>
    try exact absurd h (by decide)
  rcases mem_of_repairStep_tags _ _ _ h with h | h | h | h <;>
    try exact absurd h (by decide)
  rcases mem_of_typeStep_tags _ _ _ _ _ _ _ h with h | h | h | h <;>
    try exact absurd h (by decide)
  rcases mem_of_v8Step_tags _ _ _ _ h with h | h <;>
    try exact absurd h (by decide)
  rcases mem_of_mileageStep_tags _ _ _ _ _ _ h with h | h | h <;>
    try exact absurd h (by decide)
  rcases mem_of_yearStep_tags _ _ _ _ _ _ h with h | h | h <;>
    try exact absurd h (by decide)
  rcases mem_of_freshnessStep_tags _ _ _ _ _ h with h | h | h <;>
    try exact absurd h (by decide)
  rcases mem_of_valueTierStep_extract_make _ _ _ _ _ _ _ h with h | h | h <;>
    try exact absurd h (by decide)
  rcases mem_of_lowValueStep_tags _ _ _ _ _ h with h | h | h <;>
    try exact absurd h (by decide)
  rcases mem_of_junkSuvStep_tags _ _ _ _ _ _ _ h with h | h | h <;>
    exact absurd h (by decide)

/-- C4 counterexample: on the scenario listing and configuration the
score is 115, not 130, and no `pickup_truck` tag is emitted ("Tacoma
TRD" contains neither "pickup" nor "truck"). -/
theorem scenario_tacoma_counterexample :
    (calculate_score tacomaListing tacomaCfg).1 = 115 ∧
    ((calculate_score tacomaListing tacomaCfg).2.contains "pickup_truck") = false := by
  decide

/-- C4 amended: the high-value fresh truck scenario yields score
50+15+25+10+15 = 115 with tags `high_value_keyword`, `fresh_listing`,
`modern_year`, `low_mileage` (no type bonus fires). -/
theorem scenario_tacoma_amended :
    calculate_score tacomaListing tacomaCfg =
      (115, ["high_value_keyword", "fresh_listing", "modern_year", "low_mileage"]) := by
  decide

/-- C5 counterexample: a listing matching the configured junk-SUV keyword
with price below the override threshold, for which the final score is 75
(above the claimed cap of 30) and `junk_suv_super_cheap` is not emitted
(its text lacks "suv", so the junk section never fires). -/
theorem junk_suv_cap_counterexample :
    ((junkCfg.filters.junk_suv_keywords.map pyLower).any
        (fun k => strIn k (scoreCombined wagonListing)) = true) ∧
    wagonListing.price.getD 0 ≤ junkOverrideVal junkCfg.filters.junk_suv_price_override ∧
    calculate_score wagonListing junkCfg = (75, ["fresh_listing"]) := by
  decide

/-- C5 amended: when the combined text contains "suv", a configured
junk-SUV keyword matches and the price is at most the override
threshold, `calculate_score` emits `junk_suv_super_cheap` and the
junk-SUV section caps its running score at 30; the sections that follow
are additive, so the final score may still exceed 30. -/
theorem junk_suv_cap_amended (l : SListing) (cfg : Config)
    (hsuv : strIn "suv" (scoreCombined l) = true)
    (hany : (cfg.filters.junk_suv_keywords.map pyLower).any
      (fun k => strIn k (scoreCombined l)) = true)
    (hpr : l.price.getD 0 ≤ junkOverrideVal cfg.filters.junk_suv_price_override) :
    "junk_suv_super_cheap" ∈ (calculate_score l cfg).2 ∧
    ∀ p : Int × List String,
      (junkSuvStep (scoreCombined l) (extract_type (scoreCombined l))
        (cfg.filters.junk_suv_keywords.map pyLower)
        (junkOverrideVal cfg.filters.junk_suv_price_override)
        (l.price.getD 0) p).1 ≤ 30 := by
  constructor
  · have hbase : "junk_suv_super_cheap" ∈
        (junkSuvStep (scoreCombined l) (extract_type (scoreCombined l))
          (cfg.filters.junk_suv_keywords.map pyLower)
          (junkOverrideVal cfg.filters.junk_suv_price_override)
          (l.price.getD 0) (50, [])).2 := by
      rw [junkSuvStep_super_cheap _ _ _ _ _ _ hsuv hany hpr]
      simp
    simp only [calculate_score]
    apply emojiStep_tags_super
    apply spanishStep_tags_super
    apply repairStep_tags_super
    apply typeStep_tags_super
    apply v8Step_tags_super
    apply mileageStep_tags_super
    apply yearStep_tags_super
    apply freshnessStep_tags_super
    apply valueTierStep_tags_super
    apply lowValueStep_tags_super
    exact hbase
  · intro p
    rw [junkSuvStep_super_cheap _ _ _ _ _ _ hsuv hany hpr]
    exact min_le_right _ _

/-- Witness for the amended C5 at a concrete junk-SUV listing. -/
theorem junk_suv_cap_amended_witness :
    "junk_suv_super_cheap" ∈ (calculate_score explorerSuvListing junkCfg).2 ∧
    (junkSuvStep (scoreCombined explorerSuvListing)
      (extract_type (scoreCombined explorerSuvListing))
      (junkCfg.filters.junk_suv_keywords.map pyLower)
      (junkOverrideVal junkCfg.filters.junk_suv_price_override)
      (explorerSuvListing.price.getD 0) (50, [])).1 ≤ 30 := by
  have h := junk_suv_cap_amended explorerSuvListing junkCfg
    (by decide) (by decide) (by decide)
  exact ⟨h.1, h.2 (50, [])⟩

/-- A list with a satisfied `any` is nonempty. -/
theorem isEmpty_false_of_any (xs : List String) (p : String → Bool)
    (h : xs.any p = true) : xs.isEmpty = false := by
  cases xs
  · simp at h
  · rfl

/-- C8: the four keyword reject rules of `apply_hard_filters` fire in the
fixed source order (excluded type, title keyword, description keyword,
rust keyword), the first matching rule supplying the reason; in
particular a listing matching both an excluded type and a rust keyword is
rejected as `excluded_vehicle_type`. -/
theorem hard_filter_order (v : VetterM) (l : SListing) :
    ((v.config.filters.excluded_types.map pyLower).any
        (fun k => strIn k (hfCombined l)) = true →
      v.apply_hard_filters l = (false, "excluded_vehicle_type")) ∧
    ((v.config.filters.excluded_types.map pyLower).any
        (fun k => strIn k (hfCombined l)) = false →
      (v.config.filters.reject_title_keywords.map pyLower).any
        (fun k => strIn k (hfCombined l)) = true →
      v.apply_hard_filters l = (false, "reject_title_keyword")) ∧
    ((v.config.filters.excluded_types.map pyLower).any
        (fun k => strIn k (hfCombined l)) = false →
      (v.config.filters.reject_title_keywords.map pyLower).any
        (fun k => strIn k (hfCombined l)) = false →
      (v.config.filters.reject_description_keywords.map pyLower).any
        (fun k => strIn k (hfCombined l)) = true →
      v.apply_hard_filters l = (false, "reject_description_keyword")) ∧
    ((v.config.filters.excluded_types.map pyLower).any
        (fun k => strIn k (hfCombined l)) = false →
      (v.config.filters.reject_title_keywords.map pyLower).any
        (fun k => strIn k (hfCombined l)) = false →
      (v.config.filters.reject_description_keywords.map pyLower).any
        (fun k => strIn k (hfCombined l)) = false →
      (v.config.filters.reject_rust_keywords.map pyLower).any
        (fun k => strIn k (hfCombined l)) = true →
      v.apply_hard_filters l = (false, "reject_rust_keyword")) := by
  refine ⟨?_, ?_, ?_, ?_⟩
  · intro hE
    have hne := isEmpty_false_of_any _ _ hE
    simp [VetterM.apply_hard_filters, hE, hne]
  · intro hE hT
    have hne := isEmpty_false_of_any _ _ hT
    simp [VetterM.apply_hard_filters, hE, hT, hne]
  · intro hE hT hD
    have hne := isEmpty_false_of_any _ _ hD
    simp [VetterM.apply_hard_filters, hE, hT, hD, hne]
  · intro hE hT hD hR
    have hne := isEmpty_false_of_any _ _ hR
    simp [VetterM.apply_hard_filters, hE, hT, hD, hR, hne]

/-- Witness for C8: a listing matching both the excluded type "bus" and
the rust keyword "rust" is rejected as `excluded_vehicle_type`. -/
theorem hard_filter_order_witness :
    ((filterVetter.config.filters.reject_rust_keywords.map pyLower).any
        (fun k => strIn k (hfCombined rustyBusListing)) = true) ∧
    filterVetter.apply_hard_filters rustyBusListing =
      (false, "excluded_vehicle_type") :=
  ⟨by decide, (hard_filter_order filterVetter rustyBusListing).1 (by decide)⟩

/-- C9: the distance check never rejects.  If the four keyword rules
pass: a resolved distance beyond the (non-negative) configured radius
yields `passed=True` with a `passed_but_far_<N>_miles` reason; an
unresolved distance skips the check entirely, yielding
`(True, "passed")`.  And `calculate_distance` swallows any raised
geocoder error into `None` instead of propagating it. -/
theorem distance_soft_check (v : VetterM) (l : SListing) (d : Rat)
    (hE : (v.config.filters.excluded_types.map pyLower).any
      (fun k => strIn k (hfCombined l)) = false)
    (hT : (v.config.filters.reject_title_keywords.map pyLower).any
      (fun k => strIn k (hfCombined l)) = false)
    (hD : (v.config.filters.reject_description_keywords.map pyLower).any
      (fun k => strIn k (hfCombined l)) = false)
    (hR : (v.config.filters.reject_rust_keywords.map pyLower).any
      (fun k => strIn k (hfCombined l)) = false) :
    ((l.location.getD "" ≠ "") →
      v.calculate_distance (l.location.getD "") = some d →
      0 ≤ v.geo_radius_miles → (v.geo_radius_miles : Rat) < d →
      v.apply_hard_filters l =
        (true, "passed_but_far_" ++ toString (pyInt d) ++ "_miles")) ∧
    (v.calculate_distance (l.location.getD "") = none →
      v.apply_hard_filters l = (true, "passed")) ∧
    (∀ loc e, (v.geocode v.home_zip_code = Except.error e ∨
        v.geocode (zipQuery loc) = Except.error e) →
      v.calculate_distance loc = none) := by
  refine ⟨?_, ?_, ?_⟩
  · intro hloc hdist hr hgt
    have hd0 : d ≠ 0 := by
      have h0 : (0 : Rat) ≤ (v.geo_radius_miles : Rat) := by exact_mod_cast hr
      have : (0 : Rat) < d := lt_of_le_of_lt h0 hgt
      exact ne_of_gt this
    simp [VetterM.apply_hard_filters, hE, hT, hD, hR, hloc, hdist, hd0, hgt]
  · intro hdist
    by_cases hloc : l.location.getD "" = ""
    · simp [VetterM.apply_hard_filters, hE, hT, hD, hR, hloc]
    · simp [VetterM.apply_hard_filters, hE, hT, hD, hR, hloc, hdist]
  · intro loc e h
    unfold VetterM.calculate_distance
    rcases h with h | h
    · rw [h]
    · cases hh : v.geocode v.home_zip_code
      · rfl
      · rw [h]

/-- Witness for C9: with every location resolving and a constant geodesic
distance of 300 miles against a radius of 250, the listing passes with
the far warning, and a geocoder error on the home ZIP yields an
unresolved distance. -/
theorem distance_soft_check_witness :
    farVetter.apply_hard_filters farListing =
      (true, "passed_but_far_" ++ toString (pyInt (300 : Rat)) ++ "_miles") :=
  (distance_soft_check farVetter farListing 300
    (by decide) (by decide) (by decide) (by decide)).1
    (by decide) (by decide) (by decide) (by decide)

/-- Instantiating the exception-transparent pipeline with the real
(total) operations lifted by `Except.ok` recovers `VetterM.execute`: the
model only makes the raise-paths of the source loop explicit. -/
theorem executeExc_ok_lift (v : VetterM) (raw : List SListing) :
    executeExc (fun l => .ok (v.apply_hard_filters l))
      (fun l => .ok (apply_valuation_check l))
      (fun l => .ok (calculate_score l v.config))
      (fun t => .ok (extract_phone_numbers t)) raw = .ok (v.execute raw) := by
  induction raw with
  | nil => rfl
  | cons l rest ih =>
    have hv : apply_valuation_check l = true := rfl
    simp only [executeExc, VetterM.execute]
    by_cases h : (v.apply_hard_filters l).1 <;> simp [h, hv, ih]

/-- C6 counterexample: a two-listing batch whose first listing makes the
scorer raise; the loop (which has no try/except) propagates the error and
returns no results, even though the second listing alone is processed
fine. -/
theorem execute_fault_isolation_counterexample :
    executeExc hfOkStub vcOkStub scBoomStub phOkStub [badListing, goodListing] =
      Except.error "TypeError" ∧
    executeExc hfOkStub vcOkStub scBoomStub phOkStub [goodListing] =
      Except.ok [⟨goodListing, 50, [], "approved", []⟩] := by
  constructor <;> rfl

/-- C6 amended: `execute` does not catch per-listing exceptions — an
error raised by the hard filter, or by the scorer of a listing that
passed the filters, propagates out of the whole call, aborting the batch
with no results for the remaining listings. -/
theorem execute_error_propagation
    (hf : SListing → Except String (Bool × String))
    (vc : SListing → Except String Bool)
    (sc : SListing → Except String (Int × List String))
    (ph : String → Except String (List String))
    (l : SListing) (rest : List SListing) (e : String) :
    (hf l = Except.error e →
      executeExc hf vc sc ph (l :: rest) = Except.error e) ∧
    (∀ r, hf l = Except.ok (true, r) → vc l = Except.ok true →
      sc l = Except.error e →
      executeExc hf vc sc ph (l :: rest) = Except.error e) := by
  constructor
  · intro h
    simp [executeExc, h, Except.bind]
  · intro r h1 h2 h3
    simp [executeExc, h1, h2, h3, Except.bind]

/-- Witness for the amended C6 at a concrete failing listing. -/
theorem execute_error_propagation_witness :
    executeExc hfOkStub vcOkStub scBoomStub phOkStub [badListing] =
      Except.error "TypeError" :=
  (execute_error_propagation hfOkStub vcOkStub scBoomStub phOkStub
    badListing [] "TypeError").2 "passed" rfl rfl rfl

/-! ## Ledger merge lemmas -/

/-- Insert branch of the merge: no record at the normalized URL. -/
theorem mergeStep_eq_insert (now la : String) (L : List Record) (l : MListing)
    (h : L.find? (fun r => r.listing_url == normalize_url l.listing_url) = none) :
    mergeStep now la L l = L ++ [mkNewRecord l now la] := by
  unfold mergeStep
  rw [h]

/-- Update branch of the merge: a record exists at the normalized URL. -/
theorem mergeStep_eq_update (now la : String) (L : List Record) (l : MListing)
    (ex : Record)
    (h : L.find? (fun r => r.listing_url == normalize_url l.listing_url) =
      some ex) :
    mergeStep now la L l = L.map (fun r =>
      if r.listing_url == normalize_url l.listing_url then
        applyUpdate l now (updatedHistory ex.batch_history l) r
      else r) := by
  unfold mergeStep
  rw [h]

/-- The history update keeps batch ids duplicate-free. -/
theorem updatedHistory_nodup (hist : List BatchEntry) (l : MListing)
    (h : (hist.map (fun e => e.batch_id)).Nodup) :
    ((updatedHistory hist l).map (fun e => e.batch_id)).Nodup := by
  unfold updatedHistory
  split_ifs with hany
  · exact h
  · rw [List.map_append]
    refine List.Nodup.append h (List.nodup_singleton _) ?_
    intro a ha hb
    simp only [List.map_cons, List.map_nil, List.mem_singleton] at hb
    rcases List.mem_map.mp ha with ⟨e, he, heq⟩
    have : hist.any (fun e => e.batch_id == l.batch_id) = true :=
      List.any_eq_true.mpr ⟨e, he, by rw [heq, hb]; exact beq_self_eq_true _⟩
    exact hany this

/-- A duplicate-free projection makes the matching count exactly one as
soon as one element matches. -/
theorem countP_eq_one_of_nodup_map {α : Type} (f : α → String) (lst : List α)
    (b : String) (hn : (lst.map f).Nodup)
    (hany : lst.any (fun e => f e == b) = true) :
    lst.countP (fun e => f e == b) = 1 := by
  have hc : lst.countP (fun e => f e == b) = (lst.map f).count b := by
    rw [List.count, List.countP_map]
    rfl
  rw [hc]
  have hmem : b ∈ lst.map f := by
    rcases List.any_eq_true.mp hany with ⟨e, he, hbe⟩
    exact List.mem_map.mpr ⟨e, he, by simpa using hbe⟩
  have h1 : 1 ≤ (lst.map f).count b := List.count_pos_iff_mem.mpr hmem
  have h2 : (lst.map f).count b ≤ 1 := List.nodup_iff_count_le_one.mp hn b
  omega

/-- After the history update, the current batch id occurs exactly once. -/
theorem updatedHistory_count (hist : List BatchEntry) (l : MListing)
    (h : (hist.map (fun e => e.batch_id)).Nodup) :
    (updatedHistory hist l).countP (fun e => e.batch_id == l.batch_id) = 1 := by
  unfold updatedHistory
  split_ifs with hany
  · exact countP_eq_one_of_nodup_map _ _ _ h hany
  · rw [List.countP_append]
    have h0 : hist.countP (fun e => e.batch_id == l.batch_id) = 0 := by
      rw [List.countP_eq_zero]
      intro e he hbe
      exact hany (List.any_eq_true.mpr ⟨e, he, hbe⟩)
    simp [h0]

/-- The update pass leaves every record's URL unchanged. -/
theorem mergeStep_urls (now la : String) (L : List Record) (l : MListing)
    (ex : Record)
    (h : L.find? (fun r => r.listing_url == normalize_url l.listing_url) =
      some ex) :
    (mergeStep now la L l).map (fun r => r.listing_url) =
      L.map (fun r => r.listing_url) := by
  rw [mergeStep_eq_update now la L l ex h, List.map_map]
  congr 1
  funext r
  by_cases hc : r.listing_url = normalize_url l.listing_url <;>
    simp [hc, applyUpdate]

/-- One merge iteration preserves the ledger invariants. -/
theorem mergeStep_WF (now la : String) (L : List Record) (l : MListing)
    (h : LedgerWF L) : LedgerWF (mergeStep now la L l) := by
  obtain ⟨hurls, hhist⟩ := h
  cases hfind : L.find? (fun r => r.listing_url == normalize_url l.listing_url) with
  | none =>
    have hnone := List.find?_eq_none.mp hfind
    rw [mergeStep_eq_insert now la L l hfind]
    constructor
    · rw [List.map_append]
      refine List.Nodup.append hurls (by simp [mkNewRecord]) ?_
      intro a ha hb
      simp only [mkNewRecord, List.map_cons, List.map_nil,
        List.mem_singleton] at hb
      rcases List.mem_map.mp ha with ⟨r, hr, heq⟩
      exact hnone r hr (by rw [← heq] at hb; simp [hb])
    · intro r hr
      rcases List.mem_append.mp hr with h1 | h1
      · exact hhist r h1
      · simp only [List.mem_singleton] at h1
        subst h1
        simp [mkNewRecord]
  | some ex =>
    have hexmem : ex ∈ L := List.mem_of_find?_eq_some hfind
    constructor
    · rw [mergeStep_urls now la L l ex hfind]
      exact hurls
    · intro r hr
      rw [mergeStep_eq_update now la L l ex hfind] at hr
      rcases List.mem_map.mp hr with ⟨r0, hr0, heq⟩
      by_cases hc : r0.listing_url = normalize_url l.listing_url
      · rw [← heq]
        simp only [hc, beq_self_eq_true, if_true, applyUpdate]
        exact updatedHistory_nodup _ _ (hhist ex hexmem)
      · rw [← heq]
        have hcb : (r0.listing_url == normalize_url l.listing_url) = false := by
          simpa using hc
        simp only [hcb, Bool.false_eq_true, if_false]
        exact hhist r0 hr0

/-- A whole merge pass preserves the ledger invariants. -/
theorem mergeBatch_WF (now la : String) (ls : List MListing)
    (L : List Record) (h : LedgerWF L) : LedgerWF (mergeBatch now la L ls) := by
  induction ls generalizing L with
  | nil => exact h
  | cons l rest ih => exact ih _ (mergeStep_WF now la L l h)

/-- After one merge of a listing into a well-formed ledger, the record at
the listing's normalized URL carries the current batch id exactly once in
its history. -/
theorem mergeStep_count_batch (now la : String) (L : List Record)
    (l : MListing) (hwf : LedgerWF L) :
    ∃ r ∈ mergeStep now la L l,
      r.listing_url = normalize_url l.listing_url ∧
      r.batch_history.countP (fun e => e.batch_id == l.batch_id) = 1 := by
  obtain ⟨hurls, hhist⟩ := hwf
  cases hfind : L.find? (fun r => r.listing_url == normalize_url l.listing_url) with
  | none =>
    refine ⟨mkNewRecord l now la, ?_, ?_, ?_⟩
    · rw [mergeStep_eq_insert now la L l hfind]
      simp
    · rfl
    · simp [mkNewRecord]
  | some ex =>
    have hexmem : ex ∈ L := List.mem_of_find?_eq_some hfind
    have hexurl : ex.listing_url = normalize_url l.listing_url := by
      simpa using List.find?_some hfind
    refine ⟨applyUpdate l now (updatedHistory ex.batch_history l) ex, ?_, ?_, ?_⟩
    · rw [mergeStep_eq_update now la L l ex hfind]
      refine List.mem_map.mpr ⟨ex, hexmem, ?_⟩
      simp [hexurl]
    · simpa [applyUpdate] using hexurl
    · simp only [applyUpdate]
      exact updatedHistory_count _ _ (hhist ex hexmem)

/-- Every record of a merged ledger that sits at the listing's normalized
URL has been given the listing's price (freshly inserted or updated). -/
theorem mergeStep_price (now la : String) (L : List Record) (l : MListing) :
    ∀ r ∈ mergeStep now la L l,
      r.listing_url = normalize_url l.listing_url → r.price = l.price := by
  intro r hr hurl
  cases hfind : L.find? (fun r => r.listing_url == normalize_url l.listing_url) with
  | none =>
    rw [mergeStep_eq_insert now la L l hfind] at hr
    rcases List.mem_append.mp hr with h1 | h1
    · exact absurd (by simp [hurl] : (r.listing_url ==
        normalize_url l.listing_url) = true) (List.find?_eq_none.mp hfind r h1)
    · simp only [List.mem_singleton] at h1
      subst h1
      rfl
  | some ex =>
    rw [mergeStep_eq_update now la L l ex hfind] at hr
    rcases List.mem_map.mp hr with ⟨r0, _, heq⟩
    by_cases hc : r0.listing_url = normalize_url l.listing_url
    · rw [← heq]
      simp [hc, applyUpdate]
    · rw [← heq] at hurl
      have hcb : (r0.listing_url == normalize_url l.listing_url) = false := by
        simpa using hc
      simp only [hcb, Bool.false_eq_true, if_false] at hurl
      exact absurd hurl hc

/-- A merged ledger holds exactly one record at the merged listing's
normalized URL. -/
theorem mergeStep_countP_url (now la : String) (L : List Record)
    (l : MListing) (hwf : LedgerWF L) :
    (mergeStep now la L l).countP
      (fun r => r.listing_url == normalize_url l.listing_url) = 1 := by
  obtain ⟨hurls, _⟩ := hwf
  cases hfind : L.find? (fun r => r.listing_url == normalize_url l.listing_url) with
  | none =>
    rw [mergeStep_eq_insert now la L l hfind, List.countP_append]
    have h0 : L.countP (fun r => r.listing_url == normalize_url l.listing_url) = 0 := by
      rw [List.countP_eq_zero]
      exact List.find?_eq_none.mp hfind
    simp [h0, mkNewRecord]
  | some ex =>
    have hexmem : ex ∈ L := List.mem_of_find?_eq_some hfind
    have hexurl : ex.listing_url = normalize_url l.listing_url := by
      simpa using List.find?_some hfind
    have hcnt : ∀ M : List Record, M.countP
        (fun r => r.listing_url == normalize_url l.listing_url) =
        (M.map (fun r => r.listing_url)).count (normalize_url l.listing_url) := by
      intro M
      rw [List.count, List.countP_map]
      rfl
    rw [hcnt, mergeStep_urls now la L l ex hfind, ← hcnt]
    exact countP_eq_one_of_nodup_map (fun r : Record => r.listing_url) L
      (normalize_url l.listing_url) hurls
      (List.any_eq_true.mpr ⟨ex, hexmem, by simp [hexurl]⟩)

/-- C1: merging the same approved listing with the same batch id twice
into a well-formed ledger leaves exactly one `batch_history` entry with
that batch id in the record at the listing's normalized URL; and after
any sequence of merges the ledger invariants (in particular: no history
holds two entries with the same batch id) still hold. -/
theorem idempotent_remerge (now la : String) (ledger : List Record)
    (l : MListing) (hwf : LedgerWF ledger) :
    (∃ r ∈ mergeStep now la (mergeStep now la ledger l) l,
      r.listing_url = normalize_url l.listing_url ∧
      r.batch_history.countP (fun e => e.batch_id == l.batch_id) = 1) ∧
    ∀ ls : List MListing, LedgerWF (mergeBatch now la ledger ls) := by
  constructor
  · exact mergeStep_count_batch now la _ l (mergeStep_WF now la ledger l hwf)
  · intro ls
    exact mergeBatch_WF now la ls ledger hwf

/-- Witness for C1 on a concrete ledger and observation. -/
theorem idempotent_remerge_witness :
    ∃ r ∈ mergeStep "2025-02-01T10:00:00" "2025-02-01T09:00:00"
        (mergeStep "2025-02-01T10:00:00" "2025-02-01T09:00:00" demoLedger
          obsListing) obsListing,
      r.listing_url = normalize_url obsListing.listing_url ∧
      r.batch_history.countP (fun e => e.batch_id == obsListing.batch_id) = 1 :=
  (idempotent_remerge "2025-02-01T10:00:00" "2025-02-01T09:00:00" demoLedger
    obsListing ⟨by decide, by decide⟩).1

/-- C2: re-merging an observation of a URL whose record already exists
(e.g. with status "sold") updates exactly `price`, `score`, `last_seen`,
`batch_id`, `batch_name` and `batch_history`, and leaves `status` and
every other stored field of that record unchanged; records at other URLs
are untouched. -/
theorem status_preservation (now la : String) (ledger : List Record)
    (l : MListing) (r : Record) (hwf : LedgerWF ledger) (hr : r ∈ ledger)
    (hurl : r.listing_url = normalize_url l.listing_url) :
    (∃ r2 ∈ mergeStep now la ledger l,
      r2.status = r.status ∧
      r2.listing_url = r.listing_url ∧ r2.title = r.title ∧
      r2.description = r.description ∧ r2.mileage = r.mileage ∧
      r2.tags = r.tags ∧ r2.phone_numbers = r.phone_numbers ∧
      r2.processed_at = r.processed_at ∧ r2.listed_at = r.listed_at ∧
      r2.price = l.price ∧ r2.score = l.score ∧ r2.last_seen = some now ∧
      r2.batch_id = l.batch_id ∧ r2.batch_name = l.batch_name ∧
      r2.batch_history = updatedHistory r.batch_history l) ∧
    ∀ r0 ∈ ledger, r0.listing_url ≠ normalize_url l.listing_url →
      r0 ∈ mergeStep now la ledger l := by
  obtain ⟨hurls, hhist⟩ := hwf
  have hfind : ∃ ex, ledger.find?
      (fun q => q.listing_url == normalize_url l.listing_url) = some ex := by
    cases hf : ledger.find? (fun q => q.listing_url == normalize_url l.listing_url) with
    | none =>
      exact absurd (by simp [hurl]) (List.find?_eq_none.mp hf r hr)
    | some ex => exact ⟨ex, rfl⟩
  rcases hfind with ⟨ex, hfind⟩
  have hexmem : ex ∈ ledger := List.mem_of_find?_eq_some hfind
  have hexurl : ex.listing_url = normalize_url l.listing_url := by
    simpa using List.find?_some hfind
  have hex : ex = r :=
    List.inj_on_of_nodup_map hurls hexmem hr (by rw [hexurl, hurl])
  subst hex
  constructor
  · refine ⟨applyUpdate l now (updatedHistory ex.batch_history l) ex, ?_, ?_⟩
    · rw [mergeStep_eq_update now la ledger l ex hfind]
      refine List.mem_map.mpr ⟨ex, hexmem, ?_⟩
      simp [hexurl]
    · simp [applyUpdate]
  · intro r0 hr0 hne
    rw [mergeStep_eq_update now la ledger l ex hfind]
    refine List.mem_map.mpr ⟨r0, hr0, ?_⟩
    have hcb : (r0.listing_url == normalize_url l.listing_url) = false := by
      simpa using hne
    simp [hcb]

/-- Witness for C2: re-merging over the sold record keeps it sold. -/
theorem status_preservation_witness :
    ∃ r2 ∈ mergeStep "2025-02-01T10:00:00" "2025-02-01T09:00:00" demoLedger
        obsListing,
      r2.status = soldRecord.status ∧
      r2.listing_url = soldRecord.listing_url ∧ r2.title = soldRecord.title ∧
      r2.description = soldRecord.description ∧
      r2.mileage = soldRecord.mileage ∧ r2.tags = soldRecord.tags ∧
      r2.phone_numbers = soldRecord.phone_numbers ∧
      r2.processed_at = soldRecord.processed_at ∧
      r2.listed_at = soldRecord.listed_at ∧
      r2.price = obsListing.price ∧ r2.score = obsListing.score ∧
      r2.last_seen = some "2025-02-01T10:00:00" ∧
      r2.batch_id = obsListing.batch_id ∧
      r2.batch_name = obsListing.batch_name ∧
      r2.batch_history = updatedHistory soldRecord.batch_history obsListing :=
  (status_preservation "2025-02-01T10:00:00" "2025-02-01T09:00:00" demoLedger
    obsListing soldRecord ⟨by decide, by decide⟩ (by decide) (by decide)).1

/-- C3: the two observation URLs differing only in their query strings
normalize to the same string; merging both observations one after the
other into a well-formed ledger leaves exactly one record at that
normalized URL, that record carries the second observation's price, and
the ledger still holds at most one record per URL. -/
theorem url_normalization_merge (now la : String) (ledger : List Record)
    (l1 l2 : MListing) (hwf : LedgerWF ledger)
    (h1 : l1.listing_url = urlAbc) (h2 : l2.listing_url = urlXyz) :
    normalize_url l1.listing_url = normalize_url l2.listing_url ∧
    (mergeStep now la (mergeStep now la ledger l1) l2).countP
      (fun r => r.listing_url == normalize_url l1.listing_url) = 1 ∧
    (∀ r ∈ mergeStep now la (mergeStep now la ledger l1) l2,
      r.listing_url = normalize_url l1.listing_url → r.price = l2.price) ∧
    ((mergeStep now la (mergeStep now la ledger l1) l2).map
      (fun r => r.listing_url)).Nodup := by
  have hnorm : normalize_url l1.listing_url = normalize_url l2.listing_url := by
    rw [h1, h2]
    decide
  refine ⟨hnorm, ?_, ?_, ?_⟩
  · rw [hnorm]
    exact mergeStep_countP_url now la _ l2 (mergeStep_WF now la ledger l1 hwf)
  · intro r hrm hurl
    exact mergeStep_price now la _ l2 r hrm (by rw [← hnorm]; exact hurl)
  · exact (mergeStep_WF now la _ l2 (mergeStep_WF now la ledger l1 hwf)).1

/-- Witness for C3 on the concrete ledger and the two observations. -/
theorem url_normalization_merge_witness :
    normalize_url obsListing.listing_url = normalize_url obsListing2.listing_url ∧
    (mergeStep "T2" "S2" (mergeStep "T2" "S2" demoLedger obsListing)
      obsListing2).countP
      (fun r => r.listing_url == normalize_url obsListing.listing_url) = 1 :=
  have h := url_normalization_merge "T2" "S2" demoLedger obsListing obsListing2
    ⟨by decide, by decide⟩ rfl rfl
  ⟨h.1, h.2.1⟩

/-! ## Phone scanner lemmas -/

/-- A digit is not a separator character. -/
theorem sep_false_of_digit (c : Char) (h : c.isDigit = true) :
    (c == '-' || c == '.') = false := by
  cases hc1 : c == '-' with
  | true =>
    have : c = '-' := eq_of_beq hc1
    subst this
    exact absurd h (by decide)
  | false =>
    cases hc2 : c == '.' with
    | true =>
      have : c = '.' := eq_of_beq hc2
      subst this
      exact absurd h (by decide)
    | false => simp [hc1, hc2]

/-- A digit is not whitespace. -/
theorem not_ws_of_digit (c : Char) (h : c.isDigit = true) :
    c.isWhitespace = false := by
  cases hws : c.isWhitespace with
  | false => rfl
  | true =>
    exfalso
    simp [Char.isWhitespace] at hws
    rcases hws with ((h1 | h1) | h1) | h1 <;> subst h1 <;>
      exact absurd h (by decide)

/-- What a successful `takeDigits` says about its pieces. -/
theorem takeDigits_spec : ∀ (n : Nat) (cs d r : List Char),
    takeDigits n cs = some (d, r) →
    cs = d ++ r ∧ d.length = n ∧ ∀ c ∈ d, c.isDigit = true := by
  intro n
  induction n with
  | zero =>
    intro cs d r h
    simp [takeDigits] at h
    obtain ⟨h1, h2⟩ := h
    subst h1; subst h2
    exact ⟨rfl, rfl, by simp⟩
  | succ m ih =>
    intro cs d r h
    cases cs with
    | nil => simp [takeDigits] at h
    | cons c cs0 =>
      rw [takeDigits] at h
      split_ifs at h with hc
      · cases hrec : takeDigits m cs0 with
        | none => rw [hrec] at h; simp at h
        | some pr =>
          obtain ⟨d0, r0⟩ := pr
          rw [hrec] at h
          obtain ⟨e1, e2, e3⟩ := ih cs0 d0 r0 hrec
          simp only [Option.some.injEq, Prod.mk.injEq] at h
          obtain ⟨h1, h2⟩ := h
          subst h1
          subst h2
          refine ⟨by rw [List.cons_append, e1], by simp [e2], ?_⟩
          intro x hx
          rcases List.mem_cons.mp hx with h4 | h4
          · subst h4; exact hc
          · exact e3 x h4

/-- Conversely, `takeDigits` succeeds on a digit block followed by anything. -/
theorem takeDigits_of_digits : ∀ (d : List Char) (n : Nat) (r : List Char),
    d.length = n → (∀ c ∈ d, c.isDigit = true) →
    takeDigits n (d ++ r) = some (d, r) := by
  intro d
  induction d with
  | nil =>
    intro n r hlen _
    subst hlen
    rfl
  | cons c d0 ih =>
    intro n r hlen hdig
    cases n with
    | zero => simp at hlen
    | succ m =>
      rw [List.cons_append, takeDigits]
      have hc : c.isDigit = true := hdig c (by simp)
      rw [if_pos hc, ih m r (by simpa using hlen) (fun x hx => hdig x (by simp [hx]))]

/-- What `takeSepOpt` can return. -/
theorem takeSepOpt_spec (cs s r : List Char) (h : takeSepOpt cs = (s, r)) :
    cs = s ++ r ∧
      (s = [] ∨ ∃ c, s = [c] ∧ (c == '-' || c == '.') = true) := by
  cases cs with
  | nil =>
    simp [takeSepOpt] at h
    obtain ⟨h1, h2⟩ := h
    subst h1; subst h2
    exact ⟨rfl, Or.inl rfl⟩
  | cons c cs0 =>
    rw [takeSepOpt] at h
    split_ifs at h with hc
    · simp at h
      obtain ⟨h1, h2⟩ := h
      subst h1; subst h2
      exact ⟨rfl, Or.inr ⟨c, rfl, hc⟩⟩
    · simp at h
      obtain ⟨h1, h2⟩ := h
      subst h1; subst h2
      exact ⟨rfl, Or.inl rfl⟩

/-- Moreover, `takeSepOpt` consumes an optional separator block and leaves a
digit-headed rest alone. -/
theorem takeSepOpt_skip (s1 rest : List Char)
    (hs1 : s1 = [] ∨ ∃ c, s1 = [c] ∧ (c == '-' || c == '.') = true)
    (hrest : ∃ c cs, rest = c :: cs ∧ c.isDigit = true) :
    (takeSepOpt (s1 ++ rest)).2 = rest := by
  rcases hrest with ⟨c0, cs0, hr, hc0⟩
  rcases hs1 with h | ⟨c, hcc, hsep⟩
  · subst h
    subst hr
    rw [List.nil_append, takeSepOpt]
    simp [sep_false_of_digit c0 hc0]
  · subst hcc
    rw [List.cons_append, takeSepOpt]
    simp [hsep]

/-- Both `takeWhile` and `dropWhile` split around an explicit whitespace block. -/
theorem ws_split (w rest : List Char)
    (hw : ∀ c ∈ w, c.isWhitespace = true)
    (hrest : ∀ c, rest.head? = some c → c.isWhitespace = false) :
    (w ++ rest).takeWhile Char.isWhitespace = w ∧
    (w ++ rest).dropWhile Char.isWhitespace = rest := by
  induction w with
  | nil =>
    simp only [List.nil_append]
    cases rest with
    | nil => exact ⟨rfl, rfl⟩
    | cons c cs =>
      have hc : c.isWhitespace = false := hrest c rfl
      constructor
      · rw [List.takeWhile_cons]
        simp [hc]
      · rw [List.dropWhile_cons]
        simp [hc]
  | cons c w0 ih =>
    have hc : c.isWhitespace = true := hw c (by simp)
    have ih2 := ih (fun x hx => hw x (by simp [hx]))
    constructor
    · rw [List.cons_append, List.takeWhile_cons]
      simp [hc, ih2.1]
    · rw [List.cons_append, List.dropWhile_cons]
      simp [hc, ih2.2]

/-- Thus `takeWs` splits an explicit whitespace block off a non-whitespace
rest. -/
theorem takeWs_skip (w rest : List Char)
    (hw : ∀ c ∈ w, c.isWhitespace = true)
    (hrest : ∀ c, rest.head? = some c → c.isWhitespace = false) :
    takeWs (w ++ rest) = (w, rest) := by
  have h := ws_split w rest hw hrest
  unfold takeWs
  rw [h.1, h.2]

/-- The last element, when it exists, is a member. -/
theorem mem_of_getLast?_eq_some {α : Type} :
    ∀ (l : List α) (c : α), l.getLast? = some c → c ∈ l := by
  intro l
  induction l with
  | nil => intro c h; simp at h
  | cons a l0 ih =>
    intro c h
    cases l0 with
    | nil =>
      simp [List.getLast?] at h
      simp [h]
    | cons b l1 =>
      rw [List.getLast?_cons_cons] at h
      exact List.mem_cons_of_mem a (ih c h)

/-- Stripping is the identity on a string whose first and last characters
are not whitespace. -/
theorem pyStripList_id (l : List Char)
    (h1 : ∀ c, l.head? = some c → c.isWhitespace = false)
    (h2 : ∀ c, l.getLast? = some c → c.isWhitespace = false) :
    pyStripList l = l := by
  unfold pyStripList
  have e1 : l.dropWhile Char.isWhitespace = l := by
    cases l with
    | nil => rfl
    | cons c cs =>
      rw [List.dropWhile_cons]
      simp [h1 c rfl]
  rw [e1]
  have e2 : l.reverse.dropWhile Char.isWhitespace = l.reverse := by
    cases hr : l.reverse with
    | nil => rfl
    | cons c cs =>
      rw [List.dropWhile_cons]
      have hlast : l.getLast? = some c := by
        rw [← List.head?_reverse, hr]
        rfl
      simp [h2 c hlast]
  rw [e2, List.reverse_reverse]

/-- A nonempty digit block has a digit head. -/
theorem digits_head (d : List Char) (hne : d ≠ [])
    (hd : ∀ c ∈ d, c.isDigit = true) :
    ∃ c cs, d = c :: cs ∧ c.isDigit = true := by
  cases d with
  | nil => exact absurd rfl hne
  | cons c cs => exact ⟨c, cs, rfl, hd c (by simp)⟩

/-- The first pattern's pieces always assemble into `loosePhoneShape`,
and the assembled string is strip-invariant. -/
theorem loosePhoneShape_build (a s1 b s2 d : List Char)
    (ha : a.length = 3) (haD : ∀ c ∈ a, c.isDigit = true)
    (hs1 : s1 = [] ∨ ∃ c, s1 = [c] ∧ (c == '-' || c == '.') = true)
    (hb : b.length = 3) (hbD : ∀ c ∈ b, c.isDigit = true)
    (hs2 : s2 = [] ∨ ∃ c, s2 = [c] ∧ (c == '-' || c == '.') = true)
    (hd : d.length = 4) (hdD : ∀ c ∈ d, c.isDigit = true) :
    loosePhoneShape ⟨a ++ (s1 ++ (b ++ (s2 ++ d)))⟩ = true ∧
    pyStrip ⟨a ++ (s1 ++ (b ++ (s2 ++ d)))⟩ = ⟨a ++ (s1 ++ (b ++ (s2 ++ d)))⟩ := by
  have hbne : b ≠ [] := by intro hx; rw [hx] at hb; simp at hb
  have hdne : d ≠ [] := by intro hx; rw [hx] at hd; simp at hd
  have hane : a ≠ [] := by intro hx; rw [hx] at ha; simp at ha
  have e1 : takeDigits 3 (a ++ (s1 ++ (b ++ (s2 ++ d)))) =
      some (a, s1 ++ (b ++ (s2 ++ d))) := takeDigits_of_digits a 3 _ ha haD
  have e2 : (takeSepOpt (s1 ++ (b ++ (s2 ++ d)))).2 = b ++ (s2 ++ d) := by
    refine takeSepOpt_skip s1 _ hs1 ?_
    rcases digits_head b hbne hbD with ⟨c, cs, hbc, hcD⟩
    exact ⟨c, cs ++ (s2 ++ d), by rw [hbc]; rfl, hcD⟩
  have e3 : takeDigits 3 (b ++ (s2 ++ d)) = some (b, s2 ++ d) :=
    takeDigits_of_digits b 3 _ hb hbD
  have e4 : (takeSepOpt (s2 ++ d)).2 = d := by
    refine takeSepOpt_skip s2 d hs2 ?_
    rcases digits_head d hdne hdD with ⟨c, cs, hdc, hcD⟩
    exact ⟨c, cs, hdc, hcD⟩
  have e5 : takeDigits 4 d = some (d, []) := by
    have := takeDigits_of_digits d 4 [] hd hdD
    simpa using this
  constructor
  · simp only [loosePhoneShape, e1, e2, e3, e4, e5]
    rfl
  · unfold pyStrip
    have hid : pyStripList (a ++ (s1 ++ (b ++ (s2 ++ d)))) =
        a ++ (s1 ++ (b ++ (s2 ++ d))) := by
      refine pyStripList_id _ ?_ ?_
      · intro c hc
        rcases digits_head a hane haD with ⟨c0, cs0, hac, hc0D⟩
        rw [hac] at hc
        simp only [List.cons_append, List.head?_cons, Option.some.injEq] at hc
        rw [← hc]
        exact not_ws_of_digit c0 hc0D
      · intro c hc
        have hne2 : ∀ (x y : List Char), y ≠ [] → x ++ y ≠ [] :=
          fun x y hy hx => hy (List.append_eq_nil.mp hx).2
        have hX3 : s2 ++ d ≠ [] := hne2 s2 d hdne
        have hX2 : b ++ (s2 ++ d) ≠ [] := hne2 b _ hX3
        have hX1 : s1 ++ (b ++ (s2 ++ d)) ≠ [] := hne2 s1 _ hX2
        have hrw : (a ++ (s1 ++ (b ++ (s2 ++ d)))).getLast? = d.getLast? := by
          rw [List.getLast?_append_of_ne_nil _ hX1,
            List.getLast?_append_of_ne_nil _ hX2,
            List.getLast?_append_of_ne_nil _ hX3,
            List.getLast?_append_of_ne_nil _ hdne]
        rw [hrw] at hc
        exact not_ws_of_digit c (hdD c (mem_of_getLast?_eq_some d c hc))
    rw [hid]

/-- The second pattern's pieces always assemble into `parenPhoneShape`,
and the assembled string is strip-invariant. -/
theorem parenPhoneShape_build (a w b s d : List Char)
    (ha : a.length = 3) (haD : ∀ c ∈ a, c.isDigit = true)
    (hw : ∀ c ∈ w, c.isWhitespace = true)
    (hb : b.length = 3) (hbD : ∀ c ∈ b, c.isDigit = true)
    (hs : s = [] ∨ ∃ c, s = [c] ∧ (c == '-' || c == '.') = true)
    (hd : d.length = 4) (hdD : ∀ c ∈ d, c.isDigit = true) :
    parenPhoneShape ⟨'(' :: (a ++ (')' :: (w ++ (b ++ (s ++ d)))))⟩ = true ∧
    pyStrip ⟨'(' :: (a ++ (')' :: (w ++ (b ++ (s ++ d)))))⟩ =
      ⟨'(' :: (a ++ (')' :: (w ++ (b ++ (s ++ d)))))⟩ := by
  have hbne : b ≠ [] := by intro hx; rw [hx] at hb; simp at hb
  have hdne : d ≠ [] := by intro hx; rw [hx] at hd; simp at hd
  have e1 : takeDigits 3 (a ++ (')' :: (w ++ (b ++ (s ++ d))))) =
      some (a, ')' :: (w ++ (b ++ (s ++ d)))) := takeDigits_of_digits a 3 _ ha haD
  have e2 : takeWs (w ++ (b ++ (s ++ d))) = (w, b ++ (s ++ d)) := by
    refine takeWs_skip w _ hw ?_
    intro c hc
    rcases digits_head b hbne hbD with ⟨c0, cs0, hbc, hc0D⟩
    rw [hbc] at hc
    simp only [List.cons_append, List.head?_cons, Option.some.injEq] at hc
    rw [← hc]
    exact not_ws_of_digit c0 hc0D
  have e3 : takeDigits 3 (b ++ (s ++ d)) = some (b, s ++ d) :=
    takeDigits_of_digits b 3 _ hb hbD
  have e4 : (takeSepOpt (s ++ d)).2 = d := by
    refine takeSepOpt_skip s d hs ?_
    rcases digits_head d hdne hdD with ⟨c, cs, hdc, hcD⟩
    exact ⟨c, cs, hdc, hcD⟩
  have e5 : takeDigits 4 d = some (d, []) := by
    have := takeDigits_of_digits d 4 [] hd hdD
    simpa using this
  constructor
  · simp only [parenPhoneShape, e1, e2, e3, e4, e5]
    rfl
  · unfold pyStrip
    have hid : pyStripList ('(' :: (a ++ (')' :: (w ++ (b ++ (s ++ d)))))) =
        '(' :: (a ++ (')' :: (w ++ (b ++ (s ++ d))))) := by
      refine pyStripList_id _ ?_ ?_
      · intro c hc
        simp only [List.head?_cons, Option.some.injEq] at hc
        rw [← hc]
        decide
      · intro c hc
        have hne2 : ∀ (x y : List Char), y ≠ [] → x ++ y ≠ [] :=
          fun x y hy hx => hy (List.append_eq_nil.mp hx).2
        have hX4 : s ++ d ≠ [] := hne2 s d hdne
        have hX3 : b ++ (s ++ d) ≠ [] := hne2 b _ hX4
        have hX2 : w ++ (b ++ (s ++ d)) ≠ [] := hne2 w _ hX3
        have hrw : ('(' :: (a ++ (')' :: (w ++ (b ++ (s ++ d)))))).getLast? =
            d.getLast? := by
          rw [show ('(' :: (a ++ (')' :: (w ++ (b ++ (s ++ d)))))) =
            ('(' :: a) ++ (')' :: (w ++ (b ++ (s ++ d)))) from by simp]
          rw [List.getLast?_append_of_ne_nil _ (by simp)]
          rw [show (')' :: (w ++ (b ++ (s ++ d)))) =
            [')'] ++ (w ++ (b ++ (s ++ d))) from rfl]
          rw [List.getLast?_append_of_ne_nil _ hX2,
            List.getLast?_append_of_ne_nil _ hX3,
            List.getLast?_append_of_ne_nil _ hX4,
            List.getLast?_append_of_ne_nil _ hdne]
        rw [hrw] at hc
        exact not_ws_of_digit c (hdD c (mem_of_getLast?_eq_some d c hc))
    rw [hid]

/-- Any hit of the dashed/dotted pattern has the loose phone shape and is
strip-invariant. -/
theorem matchPhoneDashed_shape (prev : Option Char) (cs hit rest : List Char)
    (h : matchPhoneDashed prev cs = some (hit, rest)) :
    loosePhoneShape ⟨hit⟩ = true ∧ pyStrip ⟨hit⟩ = ⟨hit⟩ := by
  unfold matchPhoneDashed at h
  split_ifs at h with hb
  · cases h3 : takeDigits 3 cs with
    | none => rw [h3] at h; simp at h
    | some pr1 =>
      obtain ⟨a, r1⟩ := pr1
      rcases hsep1 : takeSepOpt r1 with ⟨s1, r2⟩
      simp only [h3, hsep1] at h
      cases h4 : takeDigits 3 r2 with
      | none => rw [h4] at h; simp at h
      | some pr2 =>
        obtain ⟨b, r3⟩ := pr2
        rcases hsep2 : takeSepOpt r3 with ⟨s2, r4⟩
        simp only [h4, hsep2] at h
        cases h5 : takeDigits 4 r4 with
        | none => rw [h5] at h; simp at h
        | some pr3 =>
          obtain ⟨d, r5⟩ := pr3
          simp only [h5] at h
          split_ifs at h with hba
          · simp only [Option.some.injEq, Prod.mk.injEq] at h
            obtain ⟨hhit, hrest⟩ := h
            obtain ⟨_, ha3, haD⟩ := takeDigits_spec 3 cs a r1 h3
            obtain ⟨_, hs1⟩ := takeSepOpt_spec r1 s1 r2 hsep1
            obtain ⟨_, hb3, hbD⟩ := takeDigits_spec 3 r2 b r3 h4
            obtain ⟨_, hs2⟩ := takeSepOpt_spec r3 s2 r4 hsep2
            obtain ⟨_, hd4, hdD⟩ := takeDigits_spec 4 r4 d r5 h5
            have hhit2 : hit = a ++ (s1 ++ (b ++ (s2 ++ d))) := by
              rw [← hhit]
              simp [List.append_assoc]
            rw [hhit2]
            exact loosePhoneShape_build a s1 b s2 d ha3 haD hs1 hb3 hbD hs2 hd4 hdD

/-- Any hit of the parenthesised pattern has the paren phone shape and is
strip-invariant. -/
theorem matchPhoneParen_shape (prev : Option Char) (cs hit rest : List Char)
    (h : matchPhoneParen prev cs = some (hit, rest)) :
    parenPhoneShape ⟨hit⟩ = true ∧ pyStrip ⟨hit⟩ = ⟨hit⟩ := by
  unfold matchPhoneParen at h
  cases cs with
  | nil => simp at h
  | cons c0 r0 =>
    simp only [] at h
    split_ifs at h with hc0
    · subst hc0
      cases h3 : takeDigits 3 r0 with
      | none => rw [h3] at h; simp at h
      | some pr1 =>
        obtain ⟨a, r1⟩ := pr1
        simp only [h3] at h
        cases r1 with
        | nil => simp at h
        | cons c1 r2 =>
          simp only [] at h
          split_ifs at h with hc1
          · subst hc1
            rcases hws : takeWs r2 with ⟨w, r3⟩
            simp only [hws] at h
            cases h4 : takeDigits 3 r3 with
            | none => rw [h4] at h; simp at h
            | some pr2 =>
              obtain ⟨b, r4⟩ := pr2
              rcases hsep : takeSepOpt r4 with ⟨s, r5⟩
              simp only [h4, hsep] at h
              cases h5 : takeDigits 4 r5 with
              | none => rw [h5] at h; simp at h
              | some pr3 =>
                obtain ⟨d, r6⟩ := pr3
                simp only [h5, Option.some.injEq, Prod.mk.injEq] at h
                obtain ⟨hhit, hrest⟩ := h
                obtain ⟨_, ha3, haD⟩ := takeDigits_spec 3 r0 a (')' :: r2) h3
                have hwspec : ∀ c ∈ w, c.isWhitespace = true := by
                  intro c hc
                  have hw2 : w = r2.takeWhile Char.isWhitespace := by
                    have := congrArg Prod.fst hws
                    simpa [takeWs] using this.symm
                  rw [hw2] at hc
                  exact List.mem_takeWhile_imp hc
                obtain ⟨_, hb3, hbD⟩ := takeDigits_spec 3 r3 b r4 h4
                obtain ⟨_, hs⟩ := takeSepOpt_spec r4 s r5 hsep
                obtain ⟨_, hd4, hdD⟩ := takeDigits_spec 4 r5 d r6 h5
                have hhit2 : hit = '(' :: (a ++ (')' :: (w ++ (b ++ (s ++ d))))) := by
                  rw [← hhit]
                  simp [List.append_assoc]
                rw [hhit2]
                exact parenPhoneShape_build a w b s d ha3 haD hwspec hb3 hbD hs
                  hd4 hdD

/-- Every string emitted by the findall scan comes from one matcher hit. -/
theorem scanMatches_shape
    (m : Option Char → List Char → Option (List Char × List Char))
    (P : String → Prop)
    (hm : ∀ prev cs hit rest, m prev cs = some (hit, rest) → P ⟨hit⟩) :
    ∀ (fuel : Nat) (prev : Option Char) (cs : List Char) (s : String),
      s ∈ scanMatches m fuel prev cs → P s := by
  intro fuel
  induction fuel with
  | zero =>
    intro prev cs s h
    simp [scanMatches] at h
  | succ n ih =>
    intro prev cs s h
    cases cs with
    | nil => simp [scanMatches] at h
    | cons c rest0 =>
      rw [scanMatches] at h
      cases hmatch : m prev (c :: rest0) with
      | some pr =>
        obtain ⟨hit, rest⟩ := pr
        rw [hmatch] at h
        rcases List.mem_cons.mp h with h1 | h1
        · subst h1
          exact hm prev (c :: rest0) hit rest hmatch
        · exact ih _ _ _ h1
      | none =>
        rw [hmatch] at h
        exact ih _ _ _ h

/-- C7 counterexample: a bare 10-digit run with no separators is
returned as a phone number (the first pattern's separators are
optional). -/
theorem phone_format_counterexample :
    extract_phone_numbers "call 5551234567 now" = ["5551234567"] := by
  decide

/-- C7 amended: every string `extract_phone_numbers` returns matches
`NNN[-.]?NNN[-.]?NNNN` (word-bounded, separators optional) or
`(NNN)\s*NNN[-.]?NNNN`; the result never holds duplicates; and a price
next to a year, as in "$500 2006", is never extracted. -/
theorem phone_format_amended :
    (∀ text : String, (extract_phone_numbers text).Nodup ∧
      ∀ s ∈ extract_phone_numbers text,
        loosePhoneShape s = true ∨ parenPhoneShape s = true) ∧
    extract_phone_numbers "$500 2006" = [] := by
  constructor
  · intro text
    constructor
    · unfold extract_phone_numbers
      split_ifs
      · exact List.nodup_nil
      · exact List.nodup_dedup _
    · intro s hs
      unfold extract_phone_numbers at hs
      split_ifs at hs
      · simp at hs
      · rw [List.mem_dedup] at hs
        rcases List.mem_map.mp hs with ⟨s0, hs0, heq⟩
        rcases List.mem_append.mp hs0 with h1 | h1
        · left
          unfold findallPhone at h1
          have hsh := scanMatches_shape matchPhoneDashed
            (fun t => loosePhoneShape t = true ∧ pyStrip t = t)
            (fun prev cs hit rest hmm =>
              matchPhoneDashed_shape prev cs hit rest hmm)
            _ _ _ s0 h1
          rw [← heq]
          have hstrip : pyStrip s0 = s0 := by
            have h2 := hsh.2
            cases s0
            exact h2
          rw [hstrip]
          exact hsh.1
        · right
          unfold findallPhone at h1
          have hsh := scanMatches_shape matchPhoneParen
            (fun t => parenPhoneShape t = true ∧ pyStrip t = t)
            (fun prev cs hit rest hmm =>
              matchPhoneParen_shape prev cs hit rest hmm)
            _ _ _ s0 h1
          rw [← heq]
          have hstrip : pyStrip s0 = s0 := by
            have h2 := hsh.2
            cases s0
            exact h2
          rw [hstrip]
          exact hsh.1
  · decide

/-- Witness for the amended C7 at a concrete text. -/
theorem phone_format_amended_witness :
    (extract_phone_numbers "call 555-123-4567").Nodup ∧
    (loosePhoneShape "555-123-4567" = true ∨
      parenPhoneShape "555-123-4567" = true) :=
  ⟨(phone_format_amended.1 "call 555-123-4567").1,
   (phone_format_amended.1 "call 555-123-4567").2 "555-123-4567" (by decide)⟩
